import Mathlib

/-!
Shallow embedding of the command-segmented data-collection core of the
`collect_data_Carla` repository:

* `CommandBasedDataCollector` (src/collect_data/command_based_data_collection.py):
  the interactive collector — ask / skip / collect loops, the quality filter,
  and the chunked segment writer `_save_segment`.
* `AutoFullTownCollector` (src/collect_data/auto_full_town_collection.py):
  the fully automated collector — `_auto_collect_data` and `_save_segment_auto`.

Machine floats of the source are embedded as rationals (`ℚ`); the raw camera
byte buffer is a `List ℕ` of byte values; h5py datasets are embedded as lists
together with the dtype / compression metadata that `create_dataset` receives.
-/

set_option maxRecDepth 8000

namespace Collect

/-- Python `str` of a whole-valued float, as used by the f-strings
`f"carla_cmd{command}_..."` in both writers.  The navigation commands produced
by `_get_navigation_command` are the floats 0.0 / 2.0 / 3.0 / 4.0 / 5.0
(`road_option_to_command`), and Python renders `2.0` as `"2.0"`. -/
def pyFloatStr (q : ℚ) : String :=
  if q.den = 1 then toString q.num ++ ".0" else toString q

/-- Model of `self.command_names = {2: 'Follow', 3: 'Left', 4: 'Right', 5: 'Straight'}`
looked up with `.get(code, 'Unknown')` (float keys compare equal to int keys
in Python). -/
def commandNames (c : ℚ) : String :=
  if c = 2 then "Follow"
  else if c = 3 then "Left"
  else if c = 4 then "Right"
  else if c = 5 then "Straight"
  else "Unknown"

/-- Python's `{:03d}` format: decimal digits left-padded with zeros to
width 3. -/
def pad3 (n : ℕ) : String :=
  let s := toString n
  String.mk (List.replicate (3 - s.length) '0') ++ s

/-- An image as stored in the segment buffer: rows × columns × channels of
byte values. -/
abbrev Image := List (List (List ℕ))

/-- A raw camera frame as delivered to `_on_camera_update`: the sensor
reports its own height and width and a flat row-major BGRA byte buffer
(`image.raw_data`).  The camera of both collectors is configured with
`image_size_x = 200`, `image_size_y = 88` (`__init__` / `setup_camera`), so
every frame actually delivered is 88 × 200 with 88·200·4 = 70400 bytes. -/
structure Frame where
  height : ℕ
  width : ℕ
  data : List ℕ
deriving DecidableEq, Repr

/-- Embedding of `_on_camera_update`: reshape the raw byte buffer to
`(image.height, image.width, 4)` (row-major), drop the alpha channel
(`[:, :, :3]`) and reverse the channel order (`[:, :, ::-1]`).  Pixel
`(i, j)` therefore holds `reverse raw[4*(w*i + j) : 4*(w*i + j) + 3]`. -/
def toImage (fr : Frame) : Image :=
  (List.range fr.height).map fun i =>
    (List.range fr.width).map fun j =>
      ((fr.data.drop (4 * (fr.width * i + j))).take 3).reverse

/-- Embedding of `current_image.mean()`: the mean over every element of the image array —
the element sum divided by the element count, embedded in `ℚ`
(`mkRat s n = s / n`, see `qmean_eq_div`). -/
def qmean (img : Image) : ℚ :=
  let f := img.flatten.flatten
  mkRat f.sum f.length

/-- The label vector built each tick:
`targets = np.zeros(25)`; `targets[0] = steer`; `targets[1] = throttle`;
`targets[2] = brake`; `targets[10] = speed_kmh`; `targets[24] = current_cmd`. -/
def mkTargets (steer throttle brake speed cmd : ℚ) : List ℚ :=
  (((((List.replicate 25 (0 : ℚ)).set 0 steer).set 1 throttle).set 2
    brake).set 10 speed).set 24 cmd

/-- One simulation tick as observed by the collectors: the payload of the
single `world.tick()` suspension point.  `raw` is the newest camera buffer
(`none` models an empty `image_buffer`), `speed` is the derived
`speed_kmh`, `cmd` the value `_get_navigation_command()` returns after the
tick, `routeCompleted` the value of `_is_route_completed()`, and `ts` the
wall-clock `time.strftime("%Y%m%d_%H%M%S")` string at this tick. -/
structure TickInput where
  raw : Option Frame
  steer : ℚ
  throttle : ℚ
  brake : ℚ
  speed : ℚ
  cmd : ℚ
  routeCompleted : Bool
  ts : String
deriving DecidableEq, Repr

/-- One persisted `.h5` artifact: the two datasets with the dtype and
compression metadata passed to `create_dataset`, the generated filename, and
the command code the writer received (which the filename encodes). -/
structure Chunk where
  filename : String
  cmd : ℚ
  rgb : List Image
  targets : List (List ℚ)
  rgbDtype : String
  targetsDtype : String
  rgbCompression : String
  rgbCompressionOpts : ℕ
  targetsCompression : String
  targetsCompressionOpts : ℕ
deriving DecidableEq, Repr

/-- Embedding of `CommandBasedDataCollector._save_segment`: slice the buffered segment into
chunks of at most 200 samples
(`num_chunks = (total_samples + 199) // 200`; chunk `i` is
`array[i*200 : min((i+1)*200, total)]`), and write each chunk with filename
`f"carla_cmd{command}_{command_name}_{timestamp}_part{chunk_idx+1:03d}.h5"`,
datasets `rgb` (`dtype=np.uint8`) and `targets` (`dtype=np.float32`), both
`compression='gzip', compression_opts=4`.  Returns nothing when the buffer is
empty (`if len(...) == 0: return`). -/
def saveSegment (rgb : List Image) (targets : List (List ℚ)) (cmd : ℚ)
    (timestamp : String) : List Chunk :=
  if rgb.length = 0 then []
  else
    let total := rgb.length
    let numChunks := (total + 199) / 200
    (List.range numChunks).map fun chunkIdx =>
      let startIdx := chunkIdx * 200
      let endIdx := min ((chunkIdx + 1) * 200) total
      { filename := "carla_cmd" ++ pyFloatStr cmd ++ "_" ++ commandNames cmd
          ++ "_" ++ timestamp ++ "_part" ++ pad3 (chunkIdx + 1) ++ ".h5"
        cmd := cmd
        rgb := (rgb.drop startIdx).take (endIdx - startIdx)
        targets := (targets.drop startIdx).take (endIdx - startIdx)
        rgbDtype := "uint8"
        targetsDtype := "float32"
        rgbCompression := "gzip"
        rgbCompressionOpts := 4
        targetsCompression := "gzip"
        targetsCompressionOpts := 4 }

/-- Embedding of `AutoFullTownCollector._save_segment_auto`: write the whole segment as a
single file named `f"carla_cmd{command}_{command_name}_{timestamp}.h5"` (no
part index), same datasets / dtypes / gzip level 4; nothing is written when
the segment is empty. -/
def saveSegmentAuto (rgb : List Image) (targets : List (List ℚ)) (cmd : ℚ)
    (timestamp : String) : List Chunk :=
  if rgb.length = 0 then []
  else
    [{ filename := "carla_cmd" ++ pyFloatStr cmd ++ "_" ++ commandNames cmd
         ++ "_" ++ timestamp ++ ".h5"
       cmd := cmd
       rgb := rgb
       targets := targets
       rgbDtype := "uint8"
       targetsDtype := "float32"
       rgbCompression := "gzip"
       rgbCompressionOpts := 4
       targetsCompression := "gzip"
       targetsCompressionOpts := 4 }]

/-! ## Interactive collector (`collect_data_interactive`) -/

/-- The mutable state of `collect_data_interactive`: the open segment buffer
(`current_segment_data['rgb'] / ['targets']`), `segment_count`,
`collected_frames`, the planner state visible to `_get_navigation_command` /
`_is_route_completed` after the last executed tick, the wall clock, and the
chunks persisted so far. -/
structure IState where
  rgb : List Image
  targets : List (List ℚ)
  segmentCount : ℕ
  collectedFrames : ℕ
  lastCmd : ℚ
  lastRouteDone : Bool
  lastTs : String
  chunks : List Chunk
deriving DecidableEq, Repr

/-- Advancing one tick updates what the planner-facing queries would
return; nothing else. -/
def tickThrough (s : IState) (t : TickInput) : IState :=
  { s with lastCmd := t.cmd, lastRouteDone := t.routeCompleted,
           lastTs := t.ts }

/-- The inner collection loop (`while self.segment_count < 200 and
collected_frames < max_frames:`): advance a tick; `break` if
`_is_route_completed()`; `continue` if the image buffer is empty; build the
label vector; `continue` (discard) if `current_image.mean() < 5 or
speed_kmh > 150`; otherwise append image and label together and bump both
counters.  Returns the state and the unconsumed ticks. -/
def collectLoop (maxFrames : ℕ) :
    List TickInput → IState → IState × List TickInput
  | [], s => (s, [])
  | t :: ts, s =>
    if s.segmentCount < 200 ∧ s.collectedFrames < maxFrames then
      let s0 := tickThrough s t
      if t.routeCompleted then (s0, ts)
      else
        match t.raw with
        | none => collectLoop maxFrames ts s0
        | some raw =>
          let img := toImage raw
          let tgt := mkTargets t.steer t.throttle t.brake t.speed t.cmd
          if qmean img < 5 ∨ t.speed > 150 then collectLoop maxFrames ts s0
          else
            collectLoop maxFrames ts
              { s0 with rgb := s0.rgb ++ [img], targets := s0.targets ++ [tgt],
                        segmentCount := s0.segmentCount + 1,
                        collectedFrames := s0.collectedFrames + 1 }
    else (s, t :: ts)

/-- How the skip loop (`while skip_frames < 500:`) exited. -/
inductive SkipExit
  /-- `_is_route_completed()` became true: `return` from the whole
  collection function. -/
  | routeDone
  /-- the observed command differs from the one that triggered the skip:
  `break` back to the outer ask loop. -/
  | changed
  /-- 500 unchanged ticks elapsed: the `while` guard failed. -/
  | timeout
  /-- the modelled input stream ended (observation truncated). -/
  | exhausted
deriving DecidableEq, Repr

/-- Result of the skip loop: the exit kind, the final `skip_frames` and
`collected_frames` counters, the planner state after the last executed tick,
and the unconsumed ticks. -/
structure SkipResult where
  exit : SkipExit
  skipFrames : ℕ
  collectedFrames : ℕ
  lastCmd : ℚ
  lastRouteDone : Bool
  lastTs : String
  remaining : List TickInput
deriving DecidableEq, Repr

/-- The skip loop: the `while skip_frames < 500` guard is checked before
each tick; an iteration advances one tick, returns on
`_is_route_completed()`, breaks as soon as `_get_navigation_command()`
differs from the triggering command, and otherwise increments both
`skip_frames` and `collected_frames`.  No segment data is touched. -/
def skipLoop (trigger : ℚ) (skipFrames cf : ℕ) (lastCmd : ℚ)
    (lastRD : Bool) (lastTs : String) :
    List TickInput → SkipResult
  | ticks =>
    if skipFrames < 500 then
      match ticks with
      | [] => ⟨.exhausted, skipFrames, cf, lastCmd, lastRD, lastTs, []⟩
      | t :: ts =>
        if t.routeCompleted then
          ⟨.routeDone, skipFrames, cf, t.cmd, true, t.ts, ts⟩
        else if t.cmd ≠ trigger then
          ⟨.changed, skipFrames, cf, t.cmd, false, t.ts, ts⟩
        else
          skipLoop trigger (skipFrames + 1) (cf + 1) t.cmd false t.ts ts
    else ⟨.timeout, skipFrames, cf, lastCmd, lastRD, lastTs, ticks⟩

/-- An operator decision, already normalised by `_ask_user_save_segment`
(invalid input re-prompts without consuming a tick, so only the accepted
tokens appear): save/s/y → `approve`, skip/n → `reject`, stop/q →
`stop`. -/
inductive Decision
  | approve
  | reject
  | stop
deriving DecidableEq, Repr

/-- The outer loop of `collect_data_interactive` (`while collected_frames <
max_frames:`): read the current command without ticking, ask the operator;
on stop `break`; on reject run the skip loop (returning on route completion);
on approve record `save_command`, reset the segment buffer, run the inner
collection loop, then — if any frames were collected — flush via
`_save_segment(save_path, save_command)` (which does *not* reset the
buffer), and `break` if the route completed.  The run is observed up to the
end of the supplied decision list. -/
def interactiveLoop (maxFrames : ℕ) :
    List Decision → List TickInput → IState → IState
  | [], _, s => s
  | d :: ds, ticks, s =>
    if s.collectedFrames < maxFrames then
      match d with
      | .stop => s
      | .reject =>
        let r := skipLoop s.lastCmd 0 s.collectedFrames s.lastCmd
          s.lastRouteDone s.lastTs ticks
        let s' := { s with collectedFrames := r.collectedFrames,
                           lastCmd := r.lastCmd,
                           lastRouteDone := r.lastRouteDone,
                           lastTs := r.lastTs }
        match r.exit with
        | .routeDone => s'
        | .exhausted => s'
        | _ => interactiveLoop maxFrames ds r.remaining s'
      | .approve =>
        let saveCmd := s.lastCmd
        let s1 := { s with rgb := [], targets := [], segmentCount := 0 }
        let p := collectLoop maxFrames ticks s1
        let s3 :=
          if 0 < p.1.segmentCount then
            { p.1 with
              chunks := p.1.chunks ++
                saveSegment p.1.rgb p.1.targets saveCmd p.1.lastTs }
          else p.1
        if s3.lastRouteDone then s3
        else interactiveLoop maxFrames ds p.2 s3
    else s

/-- A whole interactive run: `collected_frames = 0`, empty segment buffer,
planner state holding the initial command, no chunks written yet. -/
def runInteractive (maxFrames : ℕ) (initCmd : ℚ) (initTs : String)
    (decisions : List Decision) (ticks : List TickInput) : IState :=
  interactiveLoop maxFrames decisions ticks
    { rgb := [], targets := [], segmentCount := 0, collectedFrames := 0,
      lastCmd := initCmd, lastRouteDone := false, lastTs := initTs,
      chunks := [] }

/-! ## Fully automated collector (`_auto_collect_data`) -/

/-- The state of `_auto_collect_data`: segment buffer, `segment_count`,
`collected_frames`, and the chunks persisted so far. -/
structure AState where
  rgb : List Image
  targets : List (List ℚ)
  segmentCount : ℕ
  collectedFrames : ℕ
  chunks : List Chunk
deriving DecidableEq, Repr

/-- The automated loop (`while collected_frames < max_frames:`): advance a
tick; `break` on route completion; `continue` on an empty image buffer;
build the label vector; discard on the quality filter; otherwise append, and
when `segment_count >= 200` flush via
`_save_segment_auto(current_segment_data, save_path, current_cmd)` — using
the command of the tick just collected — and reset the segment buffer. -/
def autoLoop (maxFrames : ℕ) : List TickInput → AState → AState
  | [], s => s
  | t :: ts, s =>
    if s.collectedFrames < maxFrames then
      if t.routeCompleted then s
      else
        match t.raw with
        | none => autoLoop maxFrames ts s
        | some raw =>
          let img := toImage raw
          let tgt := mkTargets t.steer t.throttle t.brake t.speed t.cmd
          if qmean img < 5 ∨ t.speed > 150 then autoLoop maxFrames ts s
          else
            let s1 := { s with rgb := s.rgb ++ [img],
                               targets := s.targets ++ [tgt],
                               segmentCount := s.segmentCount + 1,
                               collectedFrames := s.collectedFrames + 1 }
            if 200 ≤ s1.segmentCount then
              autoLoop maxFrames ts
                { s1 with
                  chunks := s1.chunks ++
                    saveSegmentAuto s1.rgb s1.targets t.cmd t.ts,
                  rgb := [], targets := [], segmentCount := 0 }
            else autoLoop maxFrames ts s1
    else s

/-- A whole automated run.  `initCmd` is `current_command`, read once by
`_get_navigation_command()` *before* the loop and never reassigned inside
it; after the loop the remaining incomplete segment (if non-empty) is flushed
with that initial command (`self._save_segment_auto(current_segment_data,
save_path, current_command)`).  Returns the loop's final state and the
chunks of that closing flush. -/
def runAuto (maxFrames : ℕ) (initCmd : ℚ) (finalTs : String)
    (ticks : List TickInput) : AState × List Chunk :=
  let s := autoLoop maxFrames ticks ⟨[], [], 0, 0, []⟩
  (s, if 0 < s.segmentCount then
        saveSegmentAuto s.rgb s.targets initCmd finalTs
      else [])

/-- All chunks the automated collector persists in one run. -/
def autoChunks (maxFrames : ℕ) (initCmd : ℚ) (finalTs : String)
    (ticks : List TickInput) : List Chunk :=
  (runAuto maxFrames initCmd finalTs ticks).1.chunks ++
    (runAuto maxFrames initCmd finalTs ticks).2

/-! ## Decidable checkers -/

/-- A tick on which the collection loops append a sample: a frame is
available, the route is not completed, and the quality filter passes
(`not (current_image.mean() < 5 or speed_kmh > 150)`). -/
def goodTick (t : TickInput) : Bool :=
  !t.routeCompleted &&
    match t.raw with
    | some fr => !decide (qmean (toImage fr) < 5) && !decide ((150 : ℚ) < t.speed)
    | none => false

/-- A tick whose camera frame (if any) is what the configured
88 × 200 RGBA camera delivers: 88 rows, 200 columns, 70400 bytes, every
byte below 256. -/
def frameWF (t : TickInput) : Bool :=
  match t.raw with
  | none => true
  | some fr =>
    fr.height == 88 && fr.width == 200 && fr.data.length == 70400 &&
      fr.data.all fun b => decide (b < 256)

/-- Checker for `rgb.shape[1:] == (88, 200, 3)` with unsigned 8-bit entries, for one
image. -/
def imgShapeOK (img : Image) : Bool :=
  img.length == 88 && img.all fun row =>
    row.length == 200 && row.all fun px =>
      px.length == 3 && px.all fun b => decide (b < 256)

/-- The persisted-chunk format of the spec: equally long datasets, images of
shape (88, 200, 3) with byte entries, 25-float label rows, dtypes uint8 /
float32, both datasets gzip level 4. -/
def chunkFormatOK (c : Chunk) : Bool :=
  c.rgb.length == c.targets.length &&
    c.rgb.all imgShapeOK &&
    c.targets.all (fun v => v.length == 25) &&
    c.rgbDtype == "uint8" && c.targetsDtype == "float32" &&
    c.rgbCompression == "gzip" && c.rgbCompressionOpts == 4 &&
    c.targetsCompression == "gzip" && c.targetsCompressionOpts == 4

/-- A chunk holding between 1 and 200 samples, with as many label rows as
images. -/
def chunkSizeOK (c : Chunk) : Bool :=
  decide (1 ≤ c.rgb.length) && decide (c.rgb.length ≤ 200) &&
    c.rgb.length == c.targets.length

/-- The command code a chunk was written under equals the command recorded
at index 24 of its most recently collected sample. -/
def cmdIsLastFrame (c : Chunk) : Bool :=
  (c.targets.getLast?.map fun v => v.getD 24 0) == some c.cmd

/-- Quality of every sample inside a chunk: mean brightness at least 5 and
recorded speed (label index 10) at most 150 km/h. -/
def chunkPure (c : Chunk) : Bool :=
  c.rgb.all (fun img => !decide (qmean img < 5)) &&
    c.targets.all (fun v => !decide ((150 : ℚ) < v.getD 10 0))

/-! ## Concrete fixtures used by witnesses and counterexamples -/

/-- A 1 × 1 camera frame with bytes BGRA = (10, 20, 30, 40); its processed
image is `[[[30, 20, 10]]]`, mean 20. -/
def wFrame : Frame := ⟨1, 1, [10, 20, 30, 40]⟩

/-- A fully black 1 × 1 frame: processed mean 0, rejected by the
brightness test. -/
def wFrameDark : Frame := ⟨1, 1, [0, 0, 0, 0]⟩

/-- A tick that passes the quality filter (mean 20, speed 30 km/h,
command Follow). -/
def wTickGood : TickInput :=
  { raw := some wFrame, steer := mkRat 1 10, throttle := mkRat 2 10,
    brake := 0, speed := 30, cmd := 2, routeCompleted := false, ts := "T1" }

/-- A tick rejected by the brightness test (mean 0 < 5). -/
def wTickDark : TickInput :=
  { raw := some wFrameDark, steer := 0, throttle := 0, brake := 0,
    speed := 30, cmd := 2, routeCompleted := false, ts := "T2" }

/-- A tick rejected by the speed test (200 km/h > 150). -/
def wTickFast : TickInput :=
  { raw := some wFrame, steer := 0, throttle := 1, brake := 0,
    speed := 200, cmd := 2, routeCompleted := false, ts := "T3" }

/-- A tick with an empty image buffer. -/
def wTickNone : TickInput :=
  { raw := none, steer := 0, throttle := 0, brake := 0,
    speed := 10, cmd := 2, routeCompleted := false, ts := "T4" }

/-- A good tick whose observed command is Right (4) instead of Follow. -/
def wTickOther : TickInput :=
  { raw := some wFrame, steer := 0, throttle := mkRat 1 2, brake := 0,
    speed := 25, cmd := 4, routeCompleted := false, ts := "T5" }

/-- A tick on which `_is_route_completed()` reports true. -/
def wTickDone : TickInput :=
  { raw := some wFrame, steer := 0, throttle := 0, brake := 1,
    speed := 5, cmd := 0, routeCompleted := true, ts := "T6" }

/-- A correctly shaped 88 × 200 × 3 image. -/
def wImg88 : Image := List.replicate 88 (List.replicate 200 [5, 6, 7])

/-- The processed image of `wFrame`. -/
def wImgTiny : Image := [[[30, 20, 10]]]

/-- A label row. -/
def wTgt : List ℚ := mkTargets 0 0 0 30 2

/-- The interactive state at the start of `collect_data_interactive` with
initial command Follow. -/
def wIState0 : IState :=
  { rgb := [], targets := [], segmentCount := 0, collectedFrames := 0,
    lastCmd := 2, lastRouteDone := false, lastTs := "T0", chunks := [] }

/-- An automated-collector state one sample short of the 200-frame flush
threshold. -/
def wAState199 : AState :=
  { rgb := List.replicate 199 wImgTiny, targets := List.replicate 199 wTgt,
    segmentCount := 199, collectedFrames := 199, chunks := [] }

/-- An interactive state with one buffered sample. -/
def wIState1 : IState :=
  { rgb := [wImgTiny], targets := [wTgt], segmentCount := 1,
    collectedFrames := 1, lastCmd := 2, lastRouteDone := false,
    lastTs := "T0", chunks := [] }

/-- The empty initial state of the automated collector. -/
def wAState0 : AState :=
  { rgb := [], targets := [], segmentCount := 0, collectedFrames := 0,
    chunks := [] }

/-- A default chunk used only as the fallback of `List.headD` when reading
the first chunk of a concrete run. -/
def wChunkFallback : Chunk :=
  { filename := "", cmd := 0, rgb := [], targets := [],
    rgbDtype := "", targetsDtype := "", rgbCompression := "",
    rgbCompressionOpts := 0, targetsCompression := "",
    targetsCompressionOpts := 0 }

/-! ## Parametric per-sample invariants -/

/-- Condition that `P` holds of the processed image and `Q` of the label vector of any
sample the tick `t` can contribute (i.e. when a frame is present and the
quality filter passes). -/
def TickOK (P : Image → Prop) (Q : List ℚ → Prop) (t : TickInput) : Prop :=
  ∀ fr, t.raw = some fr → ¬(qmean (toImage fr) < 5 ∨ t.speed > 150) →
    P (toImage fr) ∧ Q (mkTargets t.steer t.throttle t.brake t.speed t.cmd)

/-- Every buffered image satisfies `P` and every buffered label row
satisfies `Q`. -/
def BufOK (P : Image → Prop) (Q : List ℚ → Prop) (rgb : List Image)
    (tg : List (List ℚ)) : Prop :=
  (∀ i ∈ rgb, P i) ∧ (∀ v ∈ tg, Q v)

/-- Every sample of every chunk in the list satisfies `P` / `Q`. -/
def ChunksOK (P : Image → Prop) (Q : List ℚ → Prop) (cs : List Chunk) :
    Prop :=
  ∀ c ∈ cs, BufOK P Q c.rgb c.targets

/-- Structural facts about one persisted chunk: equally long datasets,
between 1 and 200 samples, and the metadata constants both writers pass to
`create_dataset`. -/
def chunkStr (c : Chunk) : Prop :=
  c.rgb.length = c.targets.length ∧ 1 ≤ c.rgb.length ∧ c.rgb.length ≤ 200 ∧
    c.rgbDtype = "uint8" ∧ c.targetsDtype = "float32" ∧
    c.rgbCompression = "gzip" ∧ c.rgbCompressionOpts = 4 ∧
    c.targetsCompression = "gzip" ∧ c.targetsCompressionOpts = 4

/-! ## Helper lemmas -/

/-- The mean `qmean` is the arithmetic mean: element sum over element count. -/
theorem qmean_eq_div (img : Image) :
    qmean img =
      (img.flatten.flatten.sum : ℚ) / (img.flatten.flatten.length : ℚ) := by
  rw [qmean, Rat.mkRat_eq_div, Int.cast_natCast]

/-- The label vector written out: steer, throttle, brake at 0/1/2, speed at
10, command at 24, zeros elsewhere. -/
theorem mkTargets_eq (s t b sp c : ℚ) :
    mkTargets s t b sp c =
      [s, t, b, 0, 0, 0, 0, 0, 0, 0, sp,
       0, 0, 0, 0, 0, 0, 0, 0, 0, 0, 0, 0, 0, c] := rfl

theorem mkTargets_length (s t b sp c : ℚ) :
    (mkTargets s t b sp c).length = 25 := rfl

theorem mkTargets_getD_speed (s t b sp c : ℚ) :
    (mkTargets s t b sp c).getD 10 0 = sp := rfl

theorem mkTargets_getD_cmd (s t b sp c : ℚ) :
    (mkTargets s t b sp c).getD 24 0 = c := rfl

/-- Membership in a chunk produced by the interactive writer: every image of
every chunk is an image of the flushed segment, in particular any per-sample
property of the buffer transfers to the chunks (dually for targets). -/
theorem saveSegment_mem (rgb : List Image) (tg : List (List ℚ)) (cmd : ℚ)
    (ts : String) {c : Chunk} (hc : c ∈ saveSegment rgb tg cmd ts) :
    c.rgb ⊆ rgb ∧ c.targets ⊆ tg ∧ c.cmd = cmd ∧
      c.rgbDtype = "uint8" ∧ c.targetsDtype = "float32" ∧
      c.rgbCompression = "gzip" ∧ c.rgbCompressionOpts = 4 ∧
      c.targetsCompression = "gzip" ∧ c.targetsCompressionOpts = 4 := by
  unfold saveSegment at hc
  split at hc
  · simp at hc
  · simp only [List.mem_map, List.mem_range] at hc
    obtain ⟨i, _, rfl⟩ := hc
    refine ⟨?_, ?_, rfl, rfl, rfl, rfl, rfl, rfl, rfl⟩
    · exact (List.take_subset _ _).trans (List.drop_subset _ _)
    · exact (List.take_subset _ _).trans (List.drop_subset _ _)

/-- Same facts for the automated writer. -/
theorem saveSegmentAuto_mem (rgb : List Image) (tg : List (List ℚ)) (cmd : ℚ)
    (ts : String) {c : Chunk} (hc : c ∈ saveSegmentAuto rgb tg cmd ts) :
    c.rgb = rgb ∧ c.targets = tg ∧ c.cmd = cmd ∧
      c.rgbDtype = "uint8" ∧ c.targetsDtype = "float32" ∧
      c.rgbCompression = "gzip" ∧ c.rgbCompressionOpts = 4 ∧
      c.targetsCompression = "gzip" ∧ c.targetsCompressionOpts = 4 := by
  unfold saveSegmentAuto at hc
  split at hc
  · simp at hc
  · simp only [List.mem_singleton] at hc
    subst hc
    exact ⟨rfl, rfl, rfl, rfl, rfl, rfl, rfl, rfl, rfl⟩

/-- The sizes of the interactive writer's chunks: chunk `i` holds
`min ((i+1)*200) K - i*200` samples of each dataset. -/
theorem saveSegment_sizes (rgb : List Image) (tg : List (List ℚ)) (cmd : ℚ)
    (ts : String) (hlen : rgb.length = tg.length) {c : Chunk}
    (hc : c ∈ saveSegment rgb tg cmd ts) :
    c.rgb.length = c.targets.length ∧ 1 ≤ c.rgb.length ∧
      c.rgb.length ≤ 200 := by
  unfold saveSegment at hc
  split at hc
  · simp at hc
  · rename_i hK
    simp only [List.mem_map, List.mem_range] at hc
    obtain ⟨i, hi, rfl⟩ := hc
    have hiK : i * 200 < rgb.length := by omega
    refine ⟨by simp [List.length_take, List.length_drop, hlen], ?_, ?_⟩ <;>
      · simp only [List.length_take, List.length_drop]
        omega

/-- The inner interactive collection loop never touches the persisted
chunks, and only consumes ticks from its input. -/
theorem collectLoop_chunks (maxF : ℕ) (ticks : List TickInput) (s : IState) :
    (collectLoop maxF ticks s).1.chunks = s.chunks ∧
      (collectLoop maxF ticks s).2 ⊆ ticks := by
  induction ticks generalizing s with
  | nil => simp [collectLoop]
  | cons t ts ih =>
    rw [collectLoop]
    by_cases hg : s.segmentCount < 200 ∧ s.collectedFrames < maxF
    · rw [if_pos hg]
      by_cases hrc : t.routeCompleted
      · simp [hrc, tickThrough, List.subset_cons_of_subset]
      · simp only [hrc, if_false, Bool.false_eq_true]
        cases t.raw with
        | none =>
          exact ⟨(ih _).1, (ih _).2.trans (List.subset_cons_self _ _)⟩
        | some fr =>
          dsimp only
          by_cases hq : qmean (toImage fr) < 5 ∨ t.speed > 150
          · rw [if_pos hq]
            exact ⟨(ih _).1, (ih _).2.trans (List.subset_cons_self _ _)⟩
          · rw [if_neg hq]
            exact ⟨(ih _).1, (ih _).2.trans (List.subset_cons_self _ _)⟩
    · rw [if_neg hg]
      exact ⟨rfl, List.Subset.refl _⟩

/-- The collection loop keeps the image list, label list and
`segment_count` in lock step: a sample's image and label are appended
together. -/
theorem collectLoop_sync (maxF : ℕ) (ticks : List TickInput) (s : IState)
    (h1 : s.rgb.length = s.targets.length)
    (h2 : s.targets.length = s.segmentCount) :
    (collectLoop maxF ticks s).1.rgb.length =
        (collectLoop maxF ticks s).1.targets.length ∧
      (collectLoop maxF ticks s).1.targets.length =
        (collectLoop maxF ticks s).1.segmentCount := by
  induction ticks generalizing s with
  | nil => simpa [collectLoop] using ⟨h1, h2⟩
  | cons t ts ih =>
    rw [collectLoop]
    by_cases hg : s.segmentCount < 200 ∧ s.collectedFrames < maxF
    · rw [if_pos hg]
      by_cases hrc : t.routeCompleted
      · simpa [hrc, tickThrough] using ⟨h1, h2⟩
      · simp only [hrc, if_false, Bool.false_eq_true]
        cases t.raw with
        | none => exact ih _ h1 h2
        | some fr =>
          dsimp only
          by_cases hq : qmean (toImage fr) < 5 ∨ t.speed > 150
          · rw [if_pos hq]
            exact ih _ h1 h2
          · rw [if_neg hq]
            refine ih _ ?_ ?_ <;> simp [tickThrough, h1, h2]
    · rw [if_neg hg]
      exact ⟨h1, h2⟩

/-- The collection loop preserves any per-sample invariant supplied by the
ticks: whatever it appends passed the quality filter on a tick of the
input. -/
theorem collectLoop_inv (P : Image → Prop) (Q : List ℚ → Prop) (maxF : ℕ)
    (ticks : List TickInput) (s : IState)
    (ht : ∀ t ∈ ticks, TickOK P Q t)
    (hs : BufOK P Q s.rgb s.targets) :
    BufOK P Q (collectLoop maxF ticks s).1.rgb
      (collectLoop maxF ticks s).1.targets := by
  induction ticks generalizing s with
  | nil => simpa [collectLoop] using hs
  | cons t ts ih =>
    have htt : TickOK P Q t := ht t (List.mem_cons_self t ts)
    have hts : ∀ u ∈ ts, TickOK P Q u := fun u hu => ht u (List.mem_cons_of_mem _ hu)
    rw [collectLoop]
    by_cases hg : s.segmentCount < 200 ∧ s.collectedFrames < maxF
    · rw [if_pos hg]
      by_cases hrc : t.routeCompleted
      · simpa [hrc, tickThrough] using hs
      · simp only [hrc, if_false, Bool.false_eq_true]
        cases hraw : t.raw with
        | none => exact ih _ hts hs
        | some fr =>
          dsimp only
          by_cases hq : qmean (toImage fr) < 5 ∨ t.speed > 150
          · rw [if_pos hq]
            exact ih _ hts hs
          · rw [if_neg hq]
            refine ih _ hts ⟨?_, ?_⟩ <;>
              simp only [tickThrough, List.mem_append, List.mem_singleton]
            · rintro i (hi | rfl)
              · exact hs.1 i hi
              · exact (htt fr hraw hq).1
            · rintro v (hv | rfl)
              · exact hs.2 v hv
              · exact (htt fr hraw hq).2
    · rw [if_neg hg]
      exact hs

/-- When the whole flushed segment fits one chunk (1 ≤ K ≤ 200 samples, as
in every interactive flush), the writer produces exactly one file holding
the full segment. -/
theorem saveSegment_single (rgb : List Image) (tg : List (List ℚ)) (cmd : ℚ)
    (ts : String) (h1 : 1 ≤ rgb.length) (h2 : rgb.length ≤ 200)
    (hlen : rgb.length = tg.length) :
    saveSegment rgb tg cmd ts =
      [{ filename := "carla_cmd" ++ pyFloatStr cmd ++ "_" ++ commandNames cmd
           ++ "_" ++ ts ++ "_part" ++ pad3 1 ++ ".h5"
         cmd := cmd, rgb := rgb, targets := tg
         rgbDtype := "uint8", targetsDtype := "float32"
         rgbCompression := "gzip", rgbCompressionOpts := 4
         targetsCompression := "gzip", targetsCompressionOpts := 4 }] := by
  unfold saveSegment
  rw [if_neg (by omega)]
  dsimp only
  have hn : (rgb.length + 199) / 200 = 1 := by omega
  have hr1 : List.range 1 = [0] := rfl
  rw [hn, hr1]
  simp only [List.map_cons, List.map_nil, Nat.zero_mul, List.drop_zero,
    Nat.sub_zero, Nat.zero_add, Nat.one_mul]
  have hmin : (min 200 rgb.length) = rgb.length := min_eq_right h2
  rw [hmin, List.take_length, hlen, List.take_length]

/-- The skip loop only consumes ticks from the front of its input. -/
theorem skipLoop_remaining_subset (ticks : List TickInput) (trig : ℚ)
    (sf cf : ℕ) (lc : ℚ) (lrd : Bool) (lts : String) :
    (skipLoop trig sf cf lc lrd lts ticks).remaining ⊆ ticks := by
  induction ticks generalizing sf cf lc lrd lts with
  | nil =>
    rw [skipLoop]
    split <;> simp
  | cons t ts ih =>
    rw [skipLoop]
    split
    · split
      · simp
      · split
        · simp
        · exact (ih _ _ _ _ _).trans (List.subset_cons_self _ _)
    · exact List.Subset.refl _

/-- The skip loop consumes at most `500 - skip_frames` ticks. -/
theorem skipLoop_consumed_le (ticks : List TickInput) (trig : ℚ)
    (sf cf : ℕ) (lc : ℚ) (lrd : Bool) (lts : String) :
    ticks.length ≤
      (skipLoop trig sf cf lc lrd lts ticks).remaining.length +
        (500 - sf) := by
  induction ticks generalizing sf cf lc lrd lts with
  | nil =>
    rw [skipLoop]
    split <;> simp
  | cons t ts ih =>
    rw [skipLoop]
    split
    · rename_i hsf
      split
      · simp only [List.length_cons]
        simp
        omega
      · split
        · simp only [List.length_cons]
          simp
          omega
        · have := ih (sf + 1) (cf + 1) t.cmd false t.ts
          simp only [List.length_cons]
          omega
    · simp

/-- If the observed command never changes and the route never completes,
the skip loop runs for exactly `500 - skip_frames` further ticks and exits
by the fail-safe bound. -/
theorem skipLoop_timeout (ticks : List TickInput) (trig : ℚ) (sf cf : ℕ)
    (lc : ℚ) (lrd : Bool) (lts : String)
    (hun : ∀ t ∈ ticks, t.routeCompleted = false ∧ t.cmd = trig)
    (hsf : sf ≤ 500) (hlen : 500 - sf ≤ ticks.length) :
    (skipLoop trig sf cf lc lrd lts ticks).exit = SkipExit.timeout ∧
      (skipLoop trig sf cf lc lrd lts ticks).remaining =
        ticks.drop (500 - sf) ∧
      (skipLoop trig sf cf lc lrd lts ticks).collectedFrames =
        cf + (500 - sf) := by
  induction ticks generalizing sf cf lc lrd lts with
  | nil =>
    have h500 : sf = 500 := by
      simp only [List.length_nil, Nat.le_zero] at hlen
      omega
    rw [skipLoop, if_neg (by omega)]
    simp [h500]
  | cons t ts ih =>
    by_cases h : sf < 500
    · rw [skipLoop, if_pos h]
      obtain ⟨hrc, hcmd⟩ := hun t (List.mem_cons_self t ts)
      simp only [hrc, Bool.false_eq_true, if_false, hcmd, ne_eq,
        not_true_eq_false]
      have hrec := ih (sf + 1) (cf + 1) trig false t.ts
        (fun u hu => hun u (List.mem_cons_of_mem _ hu)) (by omega)
        (by simp only [List.length_cons] at hlen; omega)
      refine ⟨hrec.1, ?_, ?_⟩
      · rw [hrec.2.1]
        have hstep : 500 - sf = (500 - (sf + 1)) + 1 := by omega
        rw [hstep, List.drop_succ_cons]
      · rw [hrec.2.2]
        omega
    · have h500 : sf = 500 := by omega
      rw [skipLoop, if_neg (by omega)]
      simp [h500]

/-- The skip loop returns to the ask state on the first tick whose command
differs from the trigger (provided the fail-safe bound is not yet hit and
the route does not complete first). -/
theorem skipLoop_changed (pre rest : List TickInput) (t : TickInput)
    (trig : ℚ) (sf cf : ℕ) (lc : ℚ) (lrd : Bool) (lts : String)
    (hun : ∀ u ∈ pre, u.routeCompleted = false ∧ u.cmd = trig)
    (hsf : sf + pre.length < 500)
    (hrc : t.routeCompleted = false) (hne : t.cmd ≠ trig) :
    skipLoop trig sf cf lc lrd lts (pre ++ t :: rest) =
      ⟨SkipExit.changed, sf + pre.length, cf + pre.length, t.cmd, false,
        t.ts, rest⟩ := by
  induction pre generalizing sf cf lc lrd lts with
  | nil =>
    simp only [List.nil_append, List.length_nil, Nat.add_zero]
    rw [skipLoop, if_pos (by simp only [List.length_nil] at hsf; omega)]
    simp only [hrc, Bool.false_eq_true, if_false, ne_eq, hne,
      not_false_eq_true]
    rw [if_pos (by simp [hne])]
  | cons u us ih =>
    simp only [List.cons_append]
    rw [skipLoop, if_pos (by simp only [List.length_cons] at hsf; omega)]
    obtain ⟨hurc, hucmd⟩ := hun u (List.mem_cons_self u us)
    simp only [hurc, Bool.false_eq_true, if_false, hucmd, ne_eq,
      not_true_eq_false]
    have hrec := ih (sf + 1) (cf + 1) trig false u.ts
      (fun v hv => hun v (List.mem_cons_of_mem _ hv))
      (by simp only [List.length_cons] at hsf; omega)
    rw [hrec]
    simp only [List.length_cons, SkipResult.mk.injEq, eq_self_iff_true,
      and_true, true_and]
    omega

/-- The skip loop returns (stopping the whole collection) on the first tick
on which the route completes. -/
theorem skipLoop_routeDone (pre rest : List TickInput) (t : TickInput)
    (trig : ℚ) (sf cf : ℕ) (lc : ℚ) (lrd : Bool) (lts : String)
    (hun : ∀ u ∈ pre, u.routeCompleted = false ∧ u.cmd = trig)
    (hsf : sf + pre.length < 500)
    (hrc : t.routeCompleted = true) :
    skipLoop trig sf cf lc lrd lts (pre ++ t :: rest) =
      ⟨SkipExit.routeDone, sf + pre.length, cf + pre.length, t.cmd, true,
        t.ts, rest⟩ := by
  induction pre generalizing sf cf lc lrd lts with
  | nil =>
    simp only [List.nil_append, List.length_nil, Nat.add_zero]
    rw [skipLoop, if_pos (by simp only [List.length_nil] at hsf; omega)]
    simp [hrc]
  | cons u us ih =>
    simp only [List.cons_append]
    rw [skipLoop, if_pos (by simp only [List.length_cons] at hsf; omega)]
    obtain ⟨hurc, hucmd⟩ := hun u (List.mem_cons_self u us)
    simp only [hurc, Bool.false_eq_true, if_false, hucmd, ne_eq,
      not_true_eq_false]
    have hrec := ih (sf + 1) (cf + 1) trig false u.ts
      (fun v hv => hun v (List.mem_cons_of_mem _ hv))
      (by simp only [List.length_cons] at hsf; omega)
    rw [hrec]
    simp only [List.length_cons, SkipResult.mk.injEq, eq_self_iff_true,
      and_true, true_and]
    omega

/-- The outer interactive loop preserves any per-sample invariant: the
segment buffer and every persisted chunk only ever hold samples built, and
accepted by the quality filter, on some tick of the input. -/
theorem interactiveLoop_inv (P : Image → Prop) (Q : List ℚ → Prop)
    (maxF : ℕ) (ds : List Decision) (ticks : List TickInput) (s : IState)
    (ht : ∀ t ∈ ticks, TickOK P Q t)
    (hbuf : BufOK P Q s.rgb s.targets)
    (hch : ChunksOK P Q s.chunks) :
    BufOK P Q (interactiveLoop maxF ds ticks s).rgb
        (interactiveLoop maxF ds ticks s).targets ∧
      ChunksOK P Q (interactiveLoop maxF ds ticks s).chunks := by
  induction ds generalizing ticks s with
  | nil => exact ⟨hbuf, hch⟩
  | cons d ds ih =>
    rw [interactiveLoop.eq_def]
    dsimp only
    by_cases hg : s.collectedFrames < maxF
    · rw [if_pos hg]
      cases d with
      | stop => exact ⟨hbuf, hch⟩
      | reject =>
        dsimp only
        split
        · exact ⟨hbuf, hch⟩
        · exact ⟨hbuf, hch⟩
        · refine ih _ _ (fun u hu =>
            ht u (skipLoop_remaining_subset _ _ _ _ _ _ _ hu)) hbuf hch
      | approve =>
        dsimp only
        set s1 : IState := { s with rgb := [], targets := [], segmentCount := 0 } with hs1
        have hbuf1 : BufOK P Q (collectLoop maxF ticks s1).1.rgb
            (collectLoop maxF ticks s1).1.targets := by
          refine collectLoop_inv P Q maxF ticks _ ht ⟨?_, ?_⟩ <;>
            simp [hs1, BufOK]
        have hch1 : ChunksOK P Q (collectLoop maxF ticks s1).1.chunks := by
          rw [(collectLoop_chunks maxF ticks _).1]
          simpa [hs1] using hch
        have hrest : ∀ u ∈ (collectLoop maxF ticks s1).2, TickOK P Q u :=
          fun u hu => ht u ((collectLoop_chunks maxF ticks _).2 hu)
        have hflush : ChunksOK P Q ((collectLoop maxF ticks s1).1.chunks ++
            saveSegment (collectLoop maxF ticks s1).1.rgb
              (collectLoop maxF ticks s1).1.targets s.lastCmd
              (collectLoop maxF ticks s1).1.lastTs) := by
          intro c hc
          rw [List.mem_append] at hc
          rcases hc with hc | hc
          · exact hch1 c hc
          · obtain ⟨hr, htg, -⟩ := saveSegment_mem _ _ _ _ hc
            exact ⟨fun i hi => hbuf1.1 i (hr hi),
              fun v hv => hbuf1.2 v (htg hv)⟩
        split
        · split
          · exact ⟨hbuf1, hflush⟩
          · exact ih _ _ hrest hbuf1 hflush
        · split
          · exact ⟨hbuf1, hch1⟩
          · exact ih _ _ hrest hbuf1 hch1
    · rw [if_neg hg]
      exact ⟨hbuf, hch⟩

/-- The outer interactive loop preserves the structural invariants: buffer
lists in lock step with `segment_count`, and every persisted chunk
structurally well formed. -/
theorem interactiveLoop_str (maxF : ℕ) (ds : List Decision)
    (ticks : List TickInput) (s : IState)
    (h1 : s.rgb.length = s.targets.length)
    (h2 : s.targets.length = s.segmentCount)
    (hch : ∀ c ∈ s.chunks, chunkStr c) :
    ((interactiveLoop maxF ds ticks s).rgb.length =
        (interactiveLoop maxF ds ticks s).targets.length ∧
      (interactiveLoop maxF ds ticks s).targets.length =
        (interactiveLoop maxF ds ticks s).segmentCount) ∧
      ∀ c ∈ (interactiveLoop maxF ds ticks s).chunks, chunkStr c := by
  induction ds generalizing ticks s with
  | nil => exact ⟨⟨h1, h2⟩, hch⟩
  | cons d ds ih =>
    rw [interactiveLoop.eq_def]
    dsimp only
    by_cases hg : s.collectedFrames < maxF
    · rw [if_pos hg]
      cases d with
      | stop => exact ⟨⟨h1, h2⟩, hch⟩
      | reject =>
        dsimp only
        split
        · exact ⟨⟨h1, h2⟩, hch⟩
        · exact ⟨⟨h1, h2⟩, hch⟩
        · exact ih _ _ h1 h2 hch
      | approve =>
        dsimp only
        set s1 : IState := { s with rgb := [], targets := [], segmentCount := 0 } with hs1
        have hsync := collectLoop_sync maxF ticks s1 (by simp [hs1])
          (by simp [hs1])
        have hch1 : ∀ c ∈ (collectLoop maxF ticks s1).1.chunks,
            chunkStr c := by
          rw [(collectLoop_chunks maxF ticks _).1]
          simpa [hs1] using hch
        have hflush : ∀ c ∈ (collectLoop maxF ticks s1).1.chunks ++
            saveSegment (collectLoop maxF ticks s1).1.rgb
              (collectLoop maxF ticks s1).1.targets s.lastCmd
              (collectLoop maxF ticks s1).1.lastTs, chunkStr c := by
          intro c hc
          rw [List.mem_append] at hc
          rcases hc with hc | hc
          · exact hch1 c hc
          · obtain ⟨hl, hb1, hb2⟩ := saveSegment_sizes _ _ _ _ hsync.1 hc
            obtain ⟨-, -, -, hm⟩ := saveSegment_mem _ _ _ _ hc
            exact ⟨hl, hb1, hb2, hm.1, hm.2.1, hm.2.2.1, hm.2.2.2.1,
              hm.2.2.2.2.1, hm.2.2.2.2.2⟩
        split
        · split
          · exact ⟨hsync, hflush⟩
          · exact ih _ _ hsync.1 hsync.2 hflush
        · split
          · exact ⟨hsync, hch1⟩
          · exact ih _ _ hsync.1 hsync.2 hch1
    · rw [if_neg hg]
      exact ⟨⟨h1, h2⟩, hch⟩

/-- The automated loop preserves any per-sample invariant supplied by the
ticks, over both the open buffer and every flushed chunk. -/
theorem autoLoop_inv (P : Image → Prop) (Q : List ℚ → Prop) (maxF : ℕ)
    (ticks : List TickInput) (s : AState)
    (ht : ∀ t ∈ ticks, TickOK P Q t)
    (hbuf : BufOK P Q s.rgb s.targets)
    (hch : ChunksOK P Q s.chunks) :
    BufOK P Q (autoLoop maxF ticks s).rgb (autoLoop maxF ticks s).targets ∧
      ChunksOK P Q (autoLoop maxF ticks s).chunks := by
  induction ticks generalizing s with
  | nil => exact ⟨hbuf, hch⟩
  | cons t ts ih =>
    have htt : TickOK P Q t := ht t (List.mem_cons_self t ts)
    have hts : ∀ u ∈ ts, TickOK P Q u :=
      fun u hu => ht u (List.mem_cons_of_mem _ hu)
    rw [autoLoop]
    by_cases hg : s.collectedFrames < maxF
    · rw [if_pos hg]
      by_cases hrc : t.routeCompleted
      · simp only [hrc, if_true]
        exact ⟨hbuf, hch⟩
      · simp only [hrc, Bool.false_eq_true, if_false]
        cases hraw : t.raw with
        | none => exact ih _ hts hbuf hch
        | some fr =>
          dsimp only
          by_cases hq : qmean (toImage fr) < 5 ∨ t.speed > 150
          · rw [if_pos hq]
            exact ih _ hts hbuf hch
          · rw [if_neg hq]
            have hbuf1 : BufOK P Q (s.rgb ++ [toImage fr])
                (s.targets ++
                  [mkTargets t.steer t.throttle t.brake t.speed t.cmd]) := by
              constructor
              · intro i hi
                rcases List.mem_append.1 hi with hi | hi
                · exact hbuf.1 i hi
                · rw [List.mem_singleton] at hi
                  exact hi ▸ (htt fr hraw hq).1
              · intro v hv
                rcases List.mem_append.1 hv with hv | hv
                · exact hbuf.2 v hv
                · rw [List.mem_singleton] at hv
                  exact hv ▸ (htt fr hraw hq).2
            split
            · refine ih _ hts ⟨by simp, by simp⟩ ?_
              intro c hc
              rcases List.mem_append.1 hc with hc | hc
              · exact hch c hc
              · obtain ⟨hr, htg, -⟩ := saveSegmentAuto_mem _ _ _ _ hc
                exact ⟨fun i hi => hbuf1.1 i (hr ▸ hi),
                  fun v hv => hbuf1.2 v (htg ▸ hv)⟩
            · exact ih _ hts hbuf1 hch
    · rw [if_neg hg]
      exact ⟨hbuf, hch⟩

/-- The automated loop keeps the buffer lists in lock step with
`segment_count`, keeps `segment_count` strictly below the 200 flush
threshold between iterations, and every chunk it flushes holds exactly 200
samples hence is structurally well formed. -/
theorem autoLoop_str (maxF : ℕ) (ticks : List TickInput) (s : AState)
    (h1 : s.rgb.length = s.targets.length)
    (h2 : s.targets.length = s.segmentCount)
    (h199 : s.segmentCount ≤ 199)
    (hch : ∀ c ∈ s.chunks, chunkStr c) :
    ((autoLoop maxF ticks s).rgb.length =
        (autoLoop maxF ticks s).targets.length ∧
      (autoLoop maxF ticks s).targets.length =
        (autoLoop maxF ticks s).segmentCount ∧
      (autoLoop maxF ticks s).segmentCount ≤ 199) ∧
      ∀ c ∈ (autoLoop maxF ticks s).chunks, chunkStr c := by
  induction ticks generalizing s with
  | nil => exact ⟨⟨h1, h2, h199⟩, hch⟩
  | cons t ts ih =>
    rw [autoLoop]
    by_cases hg : s.collectedFrames < maxF
    · rw [if_pos hg]
      by_cases hrc : t.routeCompleted
      · simp only [hrc, if_true]
        exact ⟨⟨h1, h2, h199⟩, hch⟩
      · simp only [hrc, Bool.false_eq_true, if_false]
        cases hraw : t.raw with
        | none => exact ih _ h1 h2 h199 hch
        | some fr =>
          dsimp only
          by_cases hq : qmean (toImage fr) < 5 ∨ t.speed > 150
          · rw [if_pos hq]
            exact ih _ h1 h2 h199 hch
          · rw [if_neg hq]
            split
            · rename_i hfull
              refine ih _ (by simp) (by simp) (by simp) ?_
              intro c hc
              rcases List.mem_append.1 hc with hc | hc
              · exact hch c hc
              · obtain ⟨hr, htg, -, hm⟩ := saveSegmentAuto_mem _ _ _ _ hc
                have hs200 : s.segmentCount = 199 := by omega
                have hlenr : c.rgb.length = 200 := by
                  rw [hr]
                  simp only [List.length_append, List.length_cons,
                    List.length_nil]
                  omega
                have hlent : c.targets.length = 200 := by
                  rw [htg]
                  simp only [List.length_append, List.length_cons,
                    List.length_nil]
                  omega
                exact ⟨by omega, by omega, by omega, hm.1, hm.2.1,
                  hm.2.2.1, hm.2.2.2.1, hm.2.2.2.2.1, hm.2.2.2.2.2⟩
            · rename_i hfull
              refine ih _ ?_ ?_ ?_ hch <;>
                simp only [List.length_append, List.length_cons,
                  List.length_nil] <;>
                omega
    · rw [if_neg hg]
      exact ⟨⟨h1, h2, h199⟩, hch⟩

/-- Every chunk the automated loop flushes from inside the loop is written
under the command of the tick that completed it — the command stored at
index 24 of its last sample. -/
theorem autoLoop_cmdLast (maxF : ℕ) (ticks : List TickInput) (s : AState)
    (hch : ∀ c ∈ s.chunks, cmdIsLastFrame c = true) :
    ∀ c ∈ (autoLoop maxF ticks s).chunks, cmdIsLastFrame c = true := by
  induction ticks generalizing s with
  | nil => exact hch
  | cons t ts ih =>
    rw [autoLoop]
    by_cases hg : s.collectedFrames < maxF
    · rw [if_pos hg]
      by_cases hrc : t.routeCompleted
      · simp only [hrc, if_true]
        exact hch
      · simp only [hrc, Bool.false_eq_true, if_false]
        cases hraw : t.raw with
        | none => exact ih _ hch
        | some fr =>
          dsimp only
          by_cases hq : qmean (toImage fr) < 5 ∨ t.speed > 150
          · rw [if_pos hq]
            exact ih _ hch
          · rw [if_neg hq]
            split
            · refine ih _ ?_
              intro c hc
              rcases List.mem_append.1 hc with hc | hc
              · exact hch c hc
              · obtain ⟨-, htg, hcmd, -⟩ := saveSegmentAuto_mem _ _ _ _ hc
                rw [cmdIsLastFrame, htg, hcmd, List.getLast?_concat]
                simp only [beq_iff_eq]
                rfl
            · exact ih _ hch
    · rw [if_neg hg]
      exact hch

/-- A frame of the configured camera (88 × 200, 70400 bytes, byte-valued)
is processed by `_on_camera_update` into an image of shape (88, 200, 3)
with byte-valued entries. -/
theorem toImage_shapeOK (fr : Frame) (hh : fr.height = 88)
    (hw : fr.width = 200) (hl : fr.data.length = 70400)
    (hb : ∀ b ∈ fr.data, b < 256) :
    imgShapeOK (toImage fr) = true := by
  simp only [imgShapeOK, Bool.and_eq_true, beq_iff_eq, List.all_eq_true,
    decide_eq_true_eq]
  refine ⟨by simp [toImage, hh], ?_⟩
  intro row hrow
  simp only [toImage, List.mem_map, List.mem_range] at hrow
  obtain ⟨i, hi, rfl⟩ := hrow
  refine ⟨by simp [hw], ?_⟩
  intro px hpx
  simp only [List.mem_map, List.mem_range] at hpx
  obtain ⟨j, hj, rfl⟩ := hpx
  rw [hh] at hi
  rw [hw] at hj ⊢
  constructor
  · simp only [List.length_reverse, List.length_take, List.length_drop, hl]
    omega
  · intro b hbmem
    rw [List.mem_reverse] at hbmem
    exact hb b (List.drop_subset _ _ (List.take_subset _ _ hbmem))

/-- A chunk with equal dataset lengths, the writers' metadata constants and
correctly shaped samples passes the persisted-format checker. -/
theorem chunkFormatOK_of (c : Chunk)
    (h1 : c.rgb.length = c.targets.length)
    (h4 : c.rgbDtype = "uint8") (h5 : c.targetsDtype = "float32")
    (h6 : c.rgbCompression = "gzip") (h7 : c.rgbCompressionOpts = 4)
    (h8 : c.targetsCompression = "gzip") (h9 : c.targetsCompressionOpts = 4)
    (hbuf : BufOK (fun img => imgShapeOK img = true)
      (fun v => v.length = 25) c.rgb c.targets) :
    chunkFormatOK c = true := by
  simp only [chunkFormatOK, Bool.and_eq_true, beq_iff_eq, List.all_eq_true]
  exact ⟨⟨⟨⟨⟨⟨⟨⟨h1, fun i hi => hbuf.1 i hi⟩,
    fun v hv => by simpa using hbuf.2 v hv⟩, h4⟩, h5⟩, h6⟩,
    by simpa using h7⟩, h8⟩, by simpa using h9⟩

/-- A well-formed tick supplies only correctly shaped samples. -/
theorem frameWF_tickOK (t : TickInput) (h : frameWF t = true) :
    TickOK (fun img => imgShapeOK img = true) (fun v => v.length = 25) t := by
  intro fr hraw _
  refine ⟨?_, mkTargets_length _ _ _ _ _⟩
  rw [frameWF, hraw] at h
  simp only [Bool.and_eq_true, beq_iff_eq, List.all_eq_true,
    decide_eq_true_eq] at h
  exact toImage_shapeOK fr h.1.1.1 h.1.1.2 h.1.2 h.2

/-- A chunk all of whose samples pass the per-sample quality predicates
passes the purity checker. -/
theorem chunkPure_of (c : Chunk)
    (hbuf : BufOK (fun img => ¬ qmean img < 5)
      (fun v => v.getD 10 0 ≤ 150) c.rgb c.targets) :
    chunkPure c = true := by
  simp only [chunkPure, Bool.and_eq_true, List.all_eq_true,
    Bool.not_eq_eq_eq_not, Bool.not_true, decide_eq_false_iff_not]
  constructor
  · exact fun i hi => hbuf.1 i hi
  · intro v hv
    have := hbuf.2 v hv
    simpa using this

/-- The automated loop alone keeps image list, label list and
`segment_count` in lock step (no bound on the segment size needed). -/
theorem autoLoop_sync (maxF : ℕ) (ticks : List TickInput) (s : AState)
    (h1 : s.rgb.length = s.targets.length)
    (h2 : s.targets.length = s.segmentCount) :
    (autoLoop maxF ticks s).rgb.length =
        (autoLoop maxF ticks s).targets.length ∧
      (autoLoop maxF ticks s).targets.length =
        (autoLoop maxF ticks s).segmentCount := by
  induction ticks generalizing s with
  | nil => exact ⟨h1, h2⟩
  | cons t ts ih =>
    rw [autoLoop]
    by_cases hg : s.collectedFrames < maxF
    · rw [if_pos hg]
      by_cases hrc : t.routeCompleted
      · simp only [hrc, if_true]
        exact ⟨h1, h2⟩
      · simp only [hrc, Bool.false_eq_true, if_false]
        cases t.raw with
        | none => exact ih _ h1 h2
        | some fr =>
          dsimp only
          by_cases hq : qmean (toImage fr) < 5 ∨ t.speed > 150
          · rw [if_pos hq]
            exact ih _ h1 h2
          · rw [if_neg hq]
            split
            · exact ih _ (by simp) (by simp)
            · refine ih _ ?_ ?_ <;>
                simp only [List.length_append, List.length_cons,
                  List.length_nil] <;>
                omega
    · rw [if_neg hg]
      exact ⟨h1, h2⟩

/-! ## Claim theorems -/

/-- C1: in both collector variants, a frame with mean brightness < 5 or
speed > 150 km/h is discarded — the loop proceeds to the next tick with the
segment buffer unchanged — and consequently no persisted chunk of either
collector contains a sample with mean brightness < 5 or recorded speed
above 150 km/h. -/
theorem C1_quality_filter :
    (∀ (maxF : ℕ) (t : TickInput) (ts : List TickInput) (s : IState)
        (fr : Frame), t.raw = some fr →
        s.segmentCount < 200 → s.collectedFrames < maxF →
        t.routeCompleted = false →
        (qmean (toImage fr) < 5 ∨ t.speed > 150) →
        collectLoop maxF (t :: ts) s = collectLoop maxF ts (tickThrough s t))
  ∧ (∀ (maxF : ℕ) (t : TickInput) (ts : List TickInput) (s : AState)
        (fr : Frame), t.raw = some fr →
        s.collectedFrames < maxF → t.routeCompleted = false →
        (qmean (toImage fr) < 5 ∨ t.speed > 150) →
        autoLoop maxF (t :: ts) s = autoLoop maxF ts s)
  ∧ (∀ (maxF : ℕ) (iC : ℚ) (iT : String) (ds : List Decision)
        (ticks : List TickInput),
        ∀ c ∈ (runInteractive maxF iC iT ds ticks).chunks,
          chunkPure c = true)
  ∧ (∀ (maxF : ℕ) (iC : ℚ) (fT : String) (ticks : List TickInput),
        ∀ c ∈ autoChunks maxF iC fT ticks, chunkPure c = true) := by
  have hall : ∀ t : TickInput, TickOK (fun img => ¬ qmean img < 5)
      (fun v => v.getD 10 0 ≤ 150) t := by
    intro t fr hraw hq
    push_neg at hq
    refine ⟨not_lt.mpr hq.1, ?_⟩
    show (mkTargets t.steer t.throttle t.brake t.speed t.cmd).getD 10 0
      ≤ 150
    rw [mkTargets_getD_speed]
    exact hq.2
  refine ⟨?_, ?_, ?_, ?_⟩
  · intro maxF t ts s fr hraw h200 hcf hrc hq
    conv_lhs => rw [collectLoop]
    rw [if_pos ⟨h200, hcf⟩]
    simp only [hrc, Bool.false_eq_true, if_false, hraw]
    rw [if_pos hq]
  · intro maxF t ts s fr hraw hcf hrc hq
    conv_lhs => rw [autoLoop]
    rw [if_pos hcf]
    simp only [hrc, Bool.false_eq_true, if_false, hraw]
    rw [if_pos hq]
  · intro maxF iC iT ds ticks c hc
    rw [runInteractive] at hc
    have h := interactiveLoop_inv (fun img => ¬ qmean img < 5)
      (fun v => v.getD 10 0 ≤ 150) maxF ds ticks
      { rgb := [], targets := [], segmentCount := 0, collectedFrames := 0,
        lastCmd := iC, lastRouteDone := false, lastTs := iT, chunks := [] }
      (fun t _ => hall t)
      ⟨fun i hi => absurd hi (by simp), fun v hv => absurd hv (by simp)⟩
      (fun c hc => absurd hc (by simp))
    exact chunkPure_of c (h.2 c hc)
  · intro maxF iC fT ticks c hc
    rw [autoChunks, List.mem_append] at hc
    have h := autoLoop_inv (fun img => ¬ qmean img < 5)
      (fun v => v.getD 10 0 ≤ 150) maxF ticks ⟨[], [], 0, 0, []⟩
      (fun t _ => hall t)
      ⟨fun i hi => absurd hi (by simp), fun v hv => absurd hv (by simp)⟩
      (fun c hc => absurd hc (by simp))
    rcases hc with hc | hc
    · exact chunkPure_of c (h.2 c hc)
    · have hc' : c ∈ (if 0 < (autoLoop maxF ticks
          ⟨[], [], 0, 0, []⟩).segmentCount then
          saveSegmentAuto (autoLoop maxF ticks ⟨[], [], 0, 0, []⟩).rgb
            (autoLoop maxF ticks ⟨[], [], 0, 0, []⟩).targets iC fT
          else []) := hc
      split at hc'
      · obtain ⟨hr, htg, -⟩ := saveSegmentAuto_mem _ _ _ _ hc'
        refine chunkPure_of c ⟨?_, ?_⟩
        · intro i hi
          exact h.1.1 i (hr ▸ hi)
        · intro v hv
          exact h.1.2 v (htg ▸ hv)
      · simp at hc'

/-- Witness for C1 at concrete inputs: a black frame is dropped by the
interactive loop, an over-speed frame is dropped by the automated loop, and
the single chunk written by each of two small concrete runs passes the
purity checker. -/
theorem C1_quality_filter_witness :
    (collectLoop 5 [wTickDark] wIState0 =
      collectLoop 5 [] (tickThrough wIState0 wTickDark))
  ∧ (autoLoop 5 [wTickFast] wAState0 = autoLoop 5 [] wAState0)
  ∧ chunkPure ((runInteractive 1 2 "T0" [Decision.approve]
      [wTickGood]).chunks.headD wChunkFallback) = true
  ∧ chunkPure ((autoChunks 1 2 "TF" [wTickGood]).headD wChunkFallback)
      = true := by
  refine ⟨?_, ?_, ?_, ?_⟩
  · exact C1_quality_filter.1 5 wTickDark [] wIState0 wFrameDark
      (by decide) (by decide) (by decide) (by decide) (by decide)
  · exact C1_quality_filter.2.1 5 wTickFast [] wAState0 wFrame
      (by decide) (by decide) (by decide) (by decide)
  · exact C1_quality_filter.2.2.1 1 2 "T0" [Decision.approve] [wTickGood]
      _ (by decide)
  · exact C1_quality_filter.2.2.2 1 2 "TF" [wTickGood] _ (by decide)

/-- C10: in both collectors the open segment's image list and label list
always have equal length, equal to the segment frame counter — the two
collection loops preserve this lock step from any state satisfying it, and
every state reached by a whole run from the empty initial buffer satisfies
it. -/
theorem C10_lockstep :
    (∀ (maxF : ℕ) (ticks : List TickInput) (s : IState),
        s.rgb.length = s.targets.length →
        s.targets.length = s.segmentCount →
        (collectLoop maxF ticks s).1.rgb.length =
            (collectLoop maxF ticks s).1.targets.length ∧
          (collectLoop maxF ticks s).1.targets.length =
            (collectLoop maxF ticks s).1.segmentCount)
  ∧ (∀ (maxF : ℕ) (ticks : List TickInput) (s : AState),
        s.rgb.length = s.targets.length →
        s.targets.length = s.segmentCount →
        (autoLoop maxF ticks s).rgb.length =
            (autoLoop maxF ticks s).targets.length ∧
          (autoLoop maxF ticks s).targets.length =
            (autoLoop maxF ticks s).segmentCount)
  ∧ (∀ (maxF : ℕ) (iC : ℚ) (iT : String) (ds : List Decision)
        (ticks : List TickInput),
        (runInteractive maxF iC iT ds ticks).rgb.length =
            (runInteractive maxF iC iT ds ticks).targets.length ∧
          (runInteractive maxF iC iT ds ticks).targets.length =
            (runInteractive maxF iC iT ds ticks).segmentCount)
  ∧ (∀ (maxF : ℕ) (iC : ℚ) (fT : String) (ticks : List TickInput),
        (runAuto maxF iC fT ticks).1.rgb.length =
            (runAuto maxF iC fT ticks).1.targets.length ∧
          (runAuto maxF iC fT ticks).1.targets.length =
            (runAuto maxF iC fT ticks).1.segmentCount) := by
  refine ⟨collectLoop_sync, autoLoop_sync, ?_, ?_⟩
  · intro maxF iC iT ds ticks
    exact (interactiveLoop_str maxF ds ticks
      { rgb := [], targets := [], segmentCount := 0, collectedFrames := 0,
        lastCmd := iC, lastRouteDone := false, lastTs := iT, chunks := [] }
      rfl rfl (fun c hc => absurd hc (by simp))).1
  · intro maxF iC fT ticks
    exact autoLoop_sync maxF ticks ⟨[], [], 0, 0, []⟩ rfl rfl

/-- Witness for C10 at a concrete state and tick list: a one-sample-buffer
state keeps its lists in lock step through both loops. -/
theorem C10_lockstep_witness :
    ((collectLoop 9 [wTickGood, wTickNone] wIState1).1.rgb.length =
        (collectLoop 9 [wTickGood, wTickNone] wIState1).1.targets.length ∧
      (collectLoop 9 [wTickGood, wTickNone] wIState1).1.targets.length =
        (collectLoop 9 [wTickGood, wTickNone] wIState1).1.segmentCount)
  ∧ ((autoLoop 9 [wTickGood] wAState199).rgb.length =
      (autoLoop 9 [wTickGood] wAState199).targets.length ∧
      (autoLoop 9 [wTickGood] wAState199).targets.length =
      (autoLoop 9 [wTickGood] wAState199).segmentCount) := by
  constructor
  · exact C10_lockstep.1 9 [wTickGood, wTickNone] wIState1
      (by decide) (by decide)
  · exact C10_lockstep.2.1 9 [wTickGood] wAState199 (by decide) (by decide)

/-- C2: the writers persist exactly the buffered samples with equal-length
`rgb` and `targets` datasets, dtypes uint8 / float32 and gzip level 4 on
both datasets; and in any run of either collector whose camera frames are
the configured 88 × 200 BGRA buffers, every persisted chunk additionally
has every image of shape (88, 200, 3) with byte-valued entries and every
label row of length 25. -/
theorem C2_chunk_format :
    (∀ (rgb : List Image) (tg : List (List ℚ)) (cmd : ℚ) (ts : String),
        rgb.length = tg.length →
        (∀ img ∈ rgb, imgShapeOK img = true) →
        (∀ v ∈ tg, v.length = 25) →
        (saveSegment rgb tg cmd ts).all chunkFormatOK = true ∧
          (saveSegmentAuto rgb tg cmd ts).all chunkFormatOK = true)
  ∧ (∀ (maxF : ℕ) (iC : ℚ) (iT : String) (ds : List Decision)
        (ticks : List TickInput), (∀ t ∈ ticks, frameWF t = true) →
        (runInteractive maxF iC iT ds ticks).chunks.all chunkFormatOK
          = true)
  ∧ (∀ (maxF : ℕ) (iC : ℚ) (fT : String) (ticks : List TickInput),
        (∀ t ∈ ticks, frameWF t = true) →
        (autoChunks maxF iC fT ticks).all chunkFormatOK = true) := by
  refine ⟨?_, ?_, ?_⟩
  · intro rgb tg cmd ts hlen himg htg
    constructor
    · rw [List.all_eq_true]
      intro c hc
      obtain ⟨hr, htsub, -, h4, h5, h6, h7, h8, h9⟩ :=
        saveSegment_mem _ _ _ _ hc
      obtain ⟨hl, -, -⟩ := saveSegment_sizes _ _ _ _ hlen hc
      exact chunkFormatOK_of c hl h4 h5 h6 h7 h8 h9
        ⟨fun i hi => himg i (hr hi), fun v hv => htg v (htsub hv)⟩
    · rw [List.all_eq_true]
      intro c hc
      obtain ⟨hr, htsub, -, h4, h5, h6, h7, h8, h9⟩ :=
        saveSegmentAuto_mem _ _ _ _ hc
      refine chunkFormatOK_of c (by rw [hr, htsub, hlen]) h4 h5 h6 h7 h8 h9
        ⟨fun i hi => himg i (hr ▸ hi), fun v hv => htg v (htsub ▸ hv)⟩
  · intro maxF iC iT ds ticks hwf
    rw [List.all_eq_true]
    intro c hc
    rw [runInteractive] at hc
    have hinv := interactiveLoop_inv (fun img => imgShapeOK img = true)
      (fun v => v.length = 25) maxF ds ticks
      { rgb := [], targets := [], segmentCount := 0, collectedFrames := 0,
        lastCmd := iC, lastRouteDone := false, lastTs := iT, chunks := [] }
      (fun t ht => frameWF_tickOK t (hwf t ht))
      ⟨fun i hi => absurd hi (by simp), fun v hv => absurd hv (by simp)⟩
      (fun c hc => absurd hc (by simp))
    have hstr := interactiveLoop_str maxF ds ticks
      { rgb := [], targets := [], segmentCount := 0, collectedFrames := 0,
        lastCmd := iC, lastRouteDone := false, lastTs := iT, chunks := [] }
      rfl rfl (fun c hc => absurd hc (by simp))
    obtain ⟨h1, -, -, h4, h5, h6, h7, h8, h9⟩ := hstr.2 c hc
    exact chunkFormatOK_of c h1 h4 h5 h6 h7 h8 h9 (hinv.2 c hc)
  · intro maxF iC fT ticks hwf
    rw [List.all_eq_true]
    intro c hc
    rw [autoChunks, List.mem_append] at hc
    have hinv := autoLoop_inv (fun img => imgShapeOK img = true)
      (fun v => v.length = 25) maxF ticks ⟨[], [], 0, 0, []⟩
      (fun t ht => frameWF_tickOK t (hwf t ht))
      ⟨fun i hi => absurd hi (by simp), fun v hv => absurd hv (by simp)⟩
      (fun c hc => absurd hc (by simp))
    have hstr := autoLoop_str maxF ticks ⟨[], [], 0, 0, []⟩ rfl rfl
      (by simp) (fun c hc => absurd hc (by simp))
    rcases hc with hc | hc
    · obtain ⟨h1, -, -, h4, h5, h6, h7, h8, h9⟩ := hstr.2 c hc
      exact chunkFormatOK_of c h1 h4 h5 h6 h7 h8 h9 (hinv.2 c hc)
    · have hc' : c ∈ (if 0 < (autoLoop maxF ticks
          ⟨[], [], 0, 0, []⟩).segmentCount then
          saveSegmentAuto (autoLoop maxF ticks ⟨[], [], 0, 0, []⟩).rgb
            (autoLoop maxF ticks ⟨[], [], 0, 0, []⟩).targets iC fT
          else []) := hc
      split at hc'
      · obtain ⟨hr, htsub, -, h4, h5, h6, h7, h8, h9⟩ :=
          saveSegmentAuto_mem _ _ _ _ hc'
        refine chunkFormatOK_of c (by rw [hr, htsub]; exact hstr.1.1)
          h4 h5 h6 h7 h8 h9
          ⟨fun i hi => hinv.1.1 i (hr ▸ hi),
            fun v hv => hinv.1.2 v (htsub ▸ hv)⟩
      · simp at hc'

/-- Witness for C2: the two writers on a one-sample segment whose image is
a correctly shaped 88 × 200 × 3 array, and two runs whose tick stream
carries no frame (so the camera-format hypothesis holds trivially). -/
theorem C2_chunk_format_witness :
    ((saveSegment [wImg88] [wTgt] 2 "TS").all chunkFormatOK = true ∧
      (saveSegmentAuto [wImg88] [wTgt] 2 "TS").all chunkFormatOK = true)
  ∧ (runInteractive 3 2 "T0" [Decision.approve]
      [wTickNone]).chunks.all chunkFormatOK = true
  ∧ (autoChunks 3 2 "TF" [wTickNone]).all chunkFormatOK = true := by
  refine ⟨?_, ?_, ?_⟩
  · exact C2_chunk_format.1 [wImg88] [wTgt] 2 "TS" (by decide)
      (by decide) (by decide)
  · exact C2_chunk_format.2.1 3 2 "T0" [Decision.approve] [wTickNone]
      (by decide)
  · exact C2_chunk_format.2.2 3 2 "TF" [wTickNone] (by decide)

/-- C8: the label vector places steer, throttle, brake at indices 0, 1, 2,
speed (km/h) at index 10 and the navigation-command code at index 24, with
the remaining twenty entries exactly zero; and every label vector persisted
by either collector is the label vector built from some tick of the input
stream. -/
theorem C8_label_layout :
    (∀ s t b sp c : ℚ,
        mkTargets s t b sp c =
          [s, t, b, 0, 0, 0, 0, 0, 0, 0, sp,
           0, 0, 0, 0, 0, 0, 0, 0, 0, 0, 0, 0, 0, c])
  ∧ (∀ (maxF : ℕ) (iC : ℚ) (iT : String) (ds : List Decision)
        (ticks : List TickInput),
        ∀ c ∈ (runInteractive maxF iC iT ds ticks).chunks,
          ∀ v ∈ c.targets, ∃ t ∈ ticks,
            v = mkTargets t.steer t.throttle t.brake t.speed t.cmd)
  ∧ (∀ (maxF : ℕ) (iC : ℚ) (fT : String) (ticks : List TickInput),
        ∀ c ∈ autoChunks maxF iC fT ticks,
          ∀ v ∈ c.targets, ∃ t ∈ ticks,
            v = mkTargets t.steer t.throttle t.brake t.speed t.cmd) := by
  refine ⟨fun s t b sp c => rfl, ?_, ?_⟩
  · intro maxF iC iT ds ticks c hc v hv
    rw [runInteractive] at hc
    have h := interactiveLoop_inv (fun _ => True)
      (fun v => ∃ t ∈ ticks,
        v = mkTargets t.steer t.throttle t.brake t.speed t.cmd)
      maxF ds ticks
      { rgb := [], targets := [], segmentCount := 0, collectedFrames := 0,
        lastCmd := iC, lastRouteDone := false, lastTs := iT, chunks := [] }
      (fun t ht fr hraw hq => ⟨trivial, t, ht, rfl⟩)
      ⟨fun i hi => trivial, fun v hv => absurd hv (by simp)⟩
      (fun c hc => absurd hc (by simp))
    exact (h.2 c hc).2 v hv
  · intro maxF iC fT ticks c hc v hv
    rw [autoChunks, List.mem_append] at hc
    have h := autoLoop_inv (fun _ => True)
      (fun v => ∃ t ∈ ticks,
        v = mkTargets t.steer t.throttle t.brake t.speed t.cmd)
      maxF ticks ⟨[], [], 0, 0, []⟩
      (fun t ht fr hraw hq => ⟨trivial, t, ht, rfl⟩)
      ⟨fun i hi => trivial, fun v hv => absurd hv (by simp)⟩
      (fun c hc => absurd hc (by simp))
    rcases hc with hc | hc
    · exact (h.2 c hc).2 v hv
    · have hc' : c ∈ (if 0 < (autoLoop maxF ticks
          ⟨[], [], 0, 0, []⟩).segmentCount then
          saveSegmentAuto (autoLoop maxF ticks ⟨[], [], 0, 0, []⟩).rgb
            (autoLoop maxF ticks ⟨[], [], 0, 0, []⟩).targets iC fT
          else []) := hc
      split at hc'
      · obtain ⟨-, htsub, -⟩ := saveSegmentAuto_mem _ _ _ _ hc'
        exact h.1.2 v (htsub ▸ hv)
      · simp at hc'

/-- Witness for C8: the single label row persisted by a small concrete
interactive run is the one its (unique) tick built — steer 1/10, throttle
2/10, brake 0, speed 30, command 2. -/
theorem C8_label_layout_witness :
    (((runInteractive 1 2 "T0" [Decision.approve] [wTickGood]).chunks.headD
        wChunkFallback).targets.headD []) =
      mkTargets (mkRat 1 10) (mkRat 2 10) 0 30 2 := by
  have h := C8_label_layout.2.1 1 2 "T0" [Decision.approve] [wTickGood]
    ((runInteractive 1 2 "T0" [Decision.approve] [wTickGood]).chunks.headD
      wChunkFallback) (by decide)
    (((runInteractive 1 2 "T0" [Decision.approve]
      [wTickGood]).chunks.headD wChunkFallback).targets.headD [])
    (by decide)
  obtain ⟨t, ht, he⟩ := h
  rw [List.mem_singleton] at ht
  subst ht
  exact he

theorem chunkSizeOK_of (c : Chunk) (h1 : c.rgb.length = c.targets.length)
    (hlo : 1 ≤ c.rgb.length) (hhi : c.rgb.length ≤ 200) :
    chunkSizeOK c = true := by
  simp only [chunkSizeOK, Bool.and_eq_true, decide_eq_true_eq, beq_iff_eq]
  exact ⟨⟨hlo, hhi⟩, h1⟩

/-- C3: the interactive writer slices a flushed segment of K ≥ 1 samples
into `(K + 199) / 200 = ⌈K / 200⌉` chunk files, chunk `i` holding exactly
the samples at positions `[200·i, min (200·(i+1)) K)` in order; the
automated writer always produces exactly one file holding the whole flushed
segment; and every chunk the automated collector persists holds between 1
and 200 samples (its in-loop flushes happen at exactly 200 samples and the
closing flush at 1–199). -/
theorem C3_chunk_slicing :
    (∀ (rgb : List Image) (tg : List (List ℚ)) (cmd : ℚ) (ts : String),
        1 ≤ rgb.length → rgb.length = tg.length →
        (saveSegment rgb tg cmd ts).length = (rgb.length + 199) / 200 ∧
          (saveSegment rgb tg cmd ts).map (fun c => c.rgb) =
            (List.range ((rgb.length + 199) / 200)).map (fun i =>
              (rgb.drop (i * 200)).take
                (min ((i + 1) * 200) rgb.length - i * 200)) ∧
          (saveSegment rgb tg cmd ts).map (fun c => c.targets) =
            (List.range ((rgb.length + 199) / 200)).map (fun i =>
              (tg.drop (i * 200)).take
                (min ((i + 1) * 200) rgb.length - i * 200)) ∧
          (saveSegment rgb tg cmd ts).all chunkSizeOK = true)
  ∧ (∀ (rgb : List Image) (tg : List (List ℚ)) (cmd : ℚ) (ts : String),
        1 ≤ rgb.length →
        (saveSegmentAuto rgb tg cmd ts).length = 1 ∧
          (saveSegmentAuto rgb tg cmd ts).map (fun c => c.rgb) = [rgb] ∧
          (saveSegmentAuto rgb tg cmd ts).map (fun c => c.targets) = [tg])
  ∧ (∀ (maxF : ℕ) (iC : ℚ) (fT : String) (ticks : List TickInput),
        (autoChunks maxF iC fT ticks).all chunkSizeOK = true) := by
  refine ⟨?_, ?_, ?_⟩
  · intro rgb tg cmd ts h1 hlen
    refine ⟨?_, ?_, ?_, ?_⟩
    · rw [saveSegment, if_neg (by omega)]
      simp
    · rw [saveSegment, if_neg (by omega)]
      simp only [List.map_map]
      rfl
    · rw [saveSegment, if_neg (by omega)]
      simp only [List.map_map]
      rfl
    · rw [List.all_eq_true]
      intro c hc
      obtain ⟨hl, hlo, hhi⟩ := saveSegment_sizes _ _ _ _ hlen hc
      exact chunkSizeOK_of c hl hlo hhi
  · intro rgb tg cmd ts h1
    rw [saveSegmentAuto, if_neg (by omega)]
    exact ⟨rfl, rfl, rfl⟩
  · intro maxF iC fT ticks
    rw [List.all_eq_true]
    intro c hc
    rw [autoChunks, List.mem_append] at hc
    have hstr := autoLoop_str maxF ticks ⟨[], [], 0, 0, []⟩ rfl rfl
      (by simp) (fun c hc => absurd hc (by simp))
    rcases hc with hc | hc
    · obtain ⟨hl, hlo, hhi, -⟩ := hstr.2 c hc
      exact chunkSizeOK_of c hl hlo hhi
    · have hc' : c ∈ (if 0 < (autoLoop maxF ticks
          ⟨[], [], 0, 0, []⟩).segmentCount then
          saveSegmentAuto (autoLoop maxF ticks ⟨[], [], 0, 0, []⟩).rgb
            (autoLoop maxF ticks ⟨[], [], 0, 0, []⟩).targets iC fT
          else []) := hc
      split at hc'
      · rename_i hpos
        obtain ⟨hr, htsub, -⟩ := saveSegmentAuto_mem _ _ _ _ hc'
        obtain ⟨hs1, hs2, hs3⟩ := hstr.1
        refine chunkSizeOK_of c (by rw [hr, htsub, hs1]) ?_ ?_
        · rw [hr, hs1, hs2]
          omega
        · rw [hr, hs1, hs2]
          omega
      · simp at hc'

/-- Witness for C3: a concrete 250-sample segment is sliced by the
interactive writer into two chunks (200 + 50 samples), the automated writer
writes it as a single file, and the chunks of a small concrete automated
run pass the size checker. -/
theorem C3_chunk_slicing_witness :
    ((saveSegment (List.replicate 250 wImgTiny) (List.replicate 250 wTgt)
        2 "TS").length = (250 + 199) / 200 ∧
      (saveSegment (List.replicate 250 wImgTiny) (List.replicate 250 wTgt)
        2 "TS").map (fun c => c.rgb) =
        (List.range ((250 + 199) / 200)).map (fun i =>
          ((List.replicate 250 wImgTiny).drop (i * 200)).take
            (min ((i + 1) * 200) 250 - i * 200)) ∧
      (saveSegment (List.replicate 250 wImgTiny) (List.replicate 250 wTgt)
        2 "TS").map (fun c => c.targets) =
        (List.range ((250 + 199) / 200)).map (fun i =>
          ((List.replicate 250 wTgt).drop (i * 200)).take
            (min ((i + 1) * 200) 250 - i * 200)) ∧
      (saveSegment (List.replicate 250 wImgTiny) (List.replicate 250 wTgt)
        2 "TS").all chunkSizeOK = true)
  ∧ ((saveSegmentAuto [wImgTiny] [wTgt] 2 "TS").length = 1 ∧
      (saveSegmentAuto [wImgTiny] [wTgt] 2 "TS").map (fun c => c.rgb)
        = [[wImgTiny]] ∧
      (saveSegmentAuto [wImgTiny] [wTgt] 2 "TS").map (fun c => c.targets)
        = [[wTgt]])
  ∧ (autoChunks 2 2 "TF" [wTickGood, wTickOther]).all chunkSizeOK
      = true := by
  refine ⟨?_, ?_, ?_⟩
  · have h := C3_chunk_slicing.1 (List.replicate 250 wImgTiny)
      (List.replicate 250 wTgt) 2 "TS" (by decide) (by decide)
    simpa using h
  · exact C3_chunk_slicing.2.1 [wImgTiny] [wTgt] 2 "TS" (by decide)
  · exact C3_chunk_slicing.2.2 2 2 "TF" [wTickGood, wTickOther]

/-- C4: evaluating the writers at a concrete flush shows the command code
is rendered with Python's float `str` — the files are named
`carla_cmd2.0_Follow_...`, not `carla_cmd2_Follow_...` as the claimed
pattern (and the module's own docstring, lines 917–920 of
`command_based_data_collection.py`) prescribe, because
`_get_navigation_command` returns the float `2.0` and the f-string
interpolates it directly. -/
theorem C4_filename_float_code :
    (saveSegment [wImgTiny] [wTgt] 2 "20251103_143025").map
        (fun c => c.filename) =
      ["carla_cmd2.0_Follow_20251103_143025_part001.h5"]
  ∧ (saveSegmentAuto [wImgTiny] [wTgt] 2 "20251103_143025").map
        (fun c => c.filename) =
      ["carla_cmd2.0_Follow_20251103_143025.h5"]
  ∧ (saveSegment [wImgTiny] [wTgt] 3 "20251103_143156").map
        (fun c => c.filename) =
      ["carla_cmd3.0_Left_20251103_143156_part001.h5"]
  ∧ pyFloatStr 2 = "2.0" := by
  refine ⟨by decide, by decide, by decide, by decide⟩

/-- C5 counterexample: a concrete interactive run that ends immediately
after its flush.  One chunk has been persisted, yet the in-memory segment
buffer still holds the flushed sample and `segment_count` is still 1 — the
flush did not clear the buffer (`_save_segment` never touches
`current_segment_data`; the reset happens only at the next approval). -/
theorem C5_flush_counterexample :
    (runInteractive 1 2 "T0" [Decision.approve] [wTickGood]).chunks.length
        = 1
  ∧ (runInteractive 1 2 "T0" [Decision.approve]
      [wTickGood]).segmentCount = 1
  ∧ (runInteractive 1 2 "T0" [Decision.approve] [wTickGood]).rgb ≠ [] := by
  refine ⟨by decide, by decide, by decide⟩

/-- C5 amended: in the automated collector each in-loop flush immediately
resets the buffer to empty before collection continues; in the interactive
collector the buffer is instead reset when the next segment is opened on
approval (the collect phase always starts from an emptied buffer), not by
the flush itself. -/
theorem C5_flush_reset_amended :
    (∀ (maxF : ℕ) (t : TickInput) (ts : List TickInput) (s : AState)
        (fr : Frame), t.raw = some fr →
        s.collectedFrames < maxF → t.routeCompleted = false →
        ¬(qmean (toImage fr) < 5 ∨ t.speed > 150) →
        200 ≤ s.segmentCount + 1 →
        autoLoop maxF (t :: ts) s =
          autoLoop maxF ts
            { rgb := [], targets := [], segmentCount := 0,
              collectedFrames := s.collectedFrames + 1,
              chunks := s.chunks ++
                saveSegmentAuto (s.rgb ++ [toImage fr])
                  (s.targets ++
                    [mkTargets t.steer t.throttle t.brake t.speed t.cmd])
                  t.cmd t.ts })
  ∧ (∀ (maxF : ℕ) (ds : List Decision) (ticks : List TickInput)
        (s : IState), s.collectedFrames < maxF →
        interactiveLoop maxF (Decision.approve :: ds) ticks s =
          (let p := collectLoop maxF ticks
             { s with rgb := [], targets := [], segmentCount := 0 };
           let s3 := if 0 < p.1.segmentCount then
               { p.1 with chunks := p.1.chunks ++
                   saveSegment p.1.rgb p.1.targets s.lastCmd p.1.lastTs }
             else p.1;
           if s3.lastRouteDone then s3
           else interactiveLoop maxF ds p.2 s3)) := by
  constructor
  · intro maxF t ts s fr hraw hcf hrc hq hfull
    conv_lhs => rw [autoLoop]
    rw [if_pos hcf]
    simp only [hrc, Bool.false_eq_true, if_false, hraw]
    rw [if_neg hq]
    rw [if_pos hfull]
  · intro maxF ds ticks s h
    rw [interactiveLoop.eq_def]
    dsimp only
    rw [if_pos h]

/-- Witness for the amended C5: after the automated collector's 200th
sample triggers a flush, the continuation state has an empty buffer and one
persisted chunk; and an approval from a state with a stale one-sample
buffer starts the new segment from an emptied buffer. -/
theorem C5_flush_reset_amended_witness :
    ((autoLoop 500 [wTickGood] wAState199).rgb = [] ∧
      (autoLoop 500 [wTickGood] wAState199).segmentCount = 0 ∧
      (autoLoop 500 [wTickGood] wAState199).chunks.length = 1)
  ∧ ((interactiveLoop 5 [Decision.approve] [] wIState1).rgb = [] ∧
      (interactiveLoop 5 [Decision.approve] [] wIState1).targets = [] ∧
      (interactiveLoop 5 [Decision.approve] [] wIState1).chunks = []) := by
  constructor
  · rw [C5_flush_reset_amended.1 500 wTickGood [] wAState199 wFrame
      (by decide) (by decide) (by decide) (by decide) (by decide)]
    refine ⟨by decide, by decide, by decide⟩
  · rw [C5_flush_reset_amended.2 5 [] [] wIState1 (by decide)]
    refine ⟨by decide, by decide, by decide⟩

/-- On a stream of ticks that all pass the quality filter (frame present,
route not completed), and within the segment-size and frame budgets, the
inner collection loop appends one sample per tick, consumes the whole
stream, writes nothing, and leaves the route-completed flag clear. -/
theorem collectLoop_good (maxF : ℕ) (ticks : List TickInput) (s : IState)
    (hg : ∀ t ∈ ticks, goodTick t = true)
    (hseg : s.segmentCount + ticks.length ≤ 200)
    (hcf : s.collectedFrames + ticks.length ≤ maxF) :
    (collectLoop maxF ticks s).1.rgb.length =
        s.rgb.length + ticks.length ∧
      (collectLoop maxF ticks s).1.targets.length =
        s.targets.length + ticks.length ∧
      (collectLoop maxF ticks s).1.segmentCount =
        s.segmentCount + ticks.length ∧
      (collectLoop maxF ticks s).1.collectedFrames =
        s.collectedFrames + ticks.length ∧
      (collectLoop maxF ticks s).1.chunks = s.chunks ∧
      (collectLoop maxF ticks s).2 = [] ∧
      (collectLoop maxF ticks s).1.lastRouteDone =
        (if ticks.isEmpty then s.lastRouteDone else false) := by
  induction ticks generalizing s with
  | nil => simp [collectLoop]
  | cons t ts ih =>
    have hgt := hg t (List.mem_cons_self t ts)
    rw [goodTick] at hgt
    cases hraw : t.raw with
    | none =>
      rw [hraw] at hgt
      simp at hgt
    | some fr =>
      rw [hraw] at hgt
      simp only [Bool.and_eq_true, Bool.not_eq_eq_eq_not, Bool.not_true,
        decide_eq_false_iff_not] at hgt
      have hrc := hgt.1
      have hq1 := hgt.2.1
      have hq2 := hgt.2.2
      rw [collectLoop]
      rw [if_pos (by simp only [List.length_cons] at hseg hcf; omega)]
      simp only [hrc, Bool.false_eq_true, if_false, hraw]
      rw [if_neg (by push_neg; exact ⟨not_lt.mp hq1, not_lt.mp hq2⟩)]
      have hseg' : s.segmentCount + 1 + ts.length ≤ 200 := by
        simp only [List.length_cons] at hseg
        omega
      have hcf' : s.collectedFrames + 1 + ts.length ≤ maxF := by
        simp only [List.length_cons] at hcf
        omega
      have hrec := ih
        { tickThrough s t with
          rgb := (tickThrough s t).rgb ++ [toImage fr],
          targets := (tickThrough s t).targets ++
            [mkTargets t.steer t.throttle t.brake t.speed t.cmd],
          segmentCount := (tickThrough s t).segmentCount + 1,
          collectedFrames := (tickThrough s t).collectedFrames + 1 }
        (fun u hu => hg u (List.mem_cons_of_mem _ hu)) hseg' hcf'
      simp only [tickThrough, List.length_append, List.length_cons,
        List.length_nil] at hrec ⊢
      obtain ⟨L1, L2, L3, L4, L5, L6, L7⟩ := hrec
      refine ⟨by rw [L1]; omega, by rw [L2]; omega, by rw [L3]; omega,
        by rw [L4]; omega, L5, L6, ?_⟩
      rw [L7]
      cases ts <;> simp [hrc]

/-- C6: approving a segment records the command observed at approval
(`save_command = self.current_command`) and then collecting 200 ticks that
all pass the quality filter writes exactly one chunk of 200 samples whose
command code is that approved command — regardless of how the observed
navigation command varies over those 200 ticks. -/
theorem C6_approved_command (maxF : ℕ) (iC : ℚ) (iT : String)
    (ticks : List TickInput) (hg : ∀ t ∈ ticks, goodTick t = true)
    (hlen : ticks.length = 200) (hmax : 200 ≤ maxF) :
    (runInteractive maxF iC iT [Decision.approve] ticks).chunks.map
      (fun c => (c.cmd, c.rgb.length, c.targets.length)) =
      [(iC, 200, 200)] := by
  rw [runInteractive, interactiveLoop.eq_def]
  dsimp only
  rw [if_pos (show (0 : ℕ) < maxF by omega)]
  have hG := collectLoop_good maxF ticks
    { rgb := [], targets := [], segmentCount := 0, collectedFrames := 0,
      lastCmd := iC, lastRouteDone := false, lastTs := iT, chunks := [] }
    hg (by simp [hlen]) (by simp [hlen, hmax])
  obtain ⟨L1, L2, L3, L4, L5, L6, L7⟩ := hG
  rw [if_pos (show 0 < (collectLoop maxF ticks
    { rgb := [], targets := [], segmentCount := 0, collectedFrames := 0,
      lastCmd := iC, lastRouteDone := false, lastTs := iT,
      chunks := [] }).1.segmentCount by rw [L3]; simp [hlen])]
  have hrd : (collectLoop maxF ticks
      { rgb := [], targets := [], segmentCount := 0, collectedFrames := 0,
        lastCmd := iC, lastRouteDone := false, lastTs := iT,
        chunks := [] }).1.lastRouteDone = false := by
    rw [L7]
    split <;> rfl
  rw [if_neg (by rw [hrd]; exact Bool.false_ne_true)]
  rw [interactiveLoop]
  simp only [L5, List.nil_append]
  rw [saveSegment_single _ _ _ _ (by simp [L1, hlen]) (by simp [L1, hlen])
    (by simp [L1, L2])]
  simp [L1, L2, hlen]

/-- Witness for C6: 200 copies of a good tick (whose observed command
Follow equals the approved command) produce one 200-sample chunk written
under command 2; the ticks' own commands are irrelevant — checked here with
a stream whose second half observes command Right (4) while the approved
command is still the initial Follow (2). -/
theorem C6_approved_command_witness :
    (runInteractive 200 2 "T0" [Decision.approve]
      (List.replicate 100 wTickGood ++
        List.replicate 100 wTickOther)).chunks.map
      (fun c => (c.cmd, c.rgb.length, c.targets.length)) =
      [(2, 200, 200)] := by
  refine C6_approved_command 200 2 "T0" _ ?_ ?_ ?_
  · intro t ht
    rcases List.mem_append.1 ht with ht | ht
    · rw [List.eq_of_mem_replicate ht]
      decide
    · rw [List.eq_of_mem_replicate ht]
      decide
  · simp
  · omega

/-- C7: from SKIPPING the collector (i) exits by the fail-safe after
exactly 500 ticks when the command never changes and the route never
completes, returning to the ask state; (ii) returns to the ask state on the
first tick whose observed command differs from the trigger; (iii) stops
instead if the route completes first; (iv) never consumes more than 500
ticks; and (v) a reject decision buffers and writes nothing: a run
consisting of one reject ends with empty buffers and no chunks. -/
theorem C7_skipping :
    (∀ (trig : ℚ) (cf : ℕ) (lc : ℚ) (lrd : Bool) (lts : String)
        (ticks : List TickInput),
        (∀ t ∈ ticks, t.routeCompleted = false ∧ t.cmd = trig) →
        500 ≤ ticks.length →
        (skipLoop trig 0 cf lc lrd lts ticks).exit = SkipExit.timeout ∧
          (skipLoop trig 0 cf lc lrd lts ticks).remaining =
            ticks.drop 500 ∧
          (skipLoop trig 0 cf lc lrd lts ticks).collectedFrames = cf + 500)
  ∧ (∀ (trig : ℚ) (cf : ℕ) (lc : ℚ) (lrd : Bool) (lts : String)
        (pre rest : List TickInput) (t : TickInput),
        (∀ u ∈ pre, u.routeCompleted = false ∧ u.cmd = trig) →
        pre.length < 500 → t.routeCompleted = false → t.cmd ≠ trig →
        skipLoop trig 0 cf lc lrd lts (pre ++ t :: rest) =
          ⟨SkipExit.changed, pre.length, cf + pre.length, t.cmd, false,
            t.ts, rest⟩)
  ∧ (∀ (trig : ℚ) (cf : ℕ) (lc : ℚ) (lrd : Bool) (lts : String)
        (pre rest : List TickInput) (t : TickInput),
        (∀ u ∈ pre, u.routeCompleted = false ∧ u.cmd = trig) →
        pre.length < 500 → t.routeCompleted = true →
        skipLoop trig 0 cf lc lrd lts (pre ++ t :: rest) =
          ⟨SkipExit.routeDone, pre.length, cf + pre.length, t.cmd, true,
            t.ts, rest⟩)
  ∧ (∀ (trig : ℚ) (sf cf : ℕ) (lc : ℚ) (lrd : Bool) (lts : String)
        (ticks : List TickInput),
        ticks.length ≤
          (skipLoop trig sf cf lc lrd lts ticks).remaining.length + 500)
  ∧ (∀ (maxF : ℕ) (iC : ℚ) (iT : String) (ticks : List TickInput),
        (runInteractive maxF iC iT [Decision.reject] ticks).chunks = [] ∧
          (runInteractive maxF iC iT [Decision.reject] ticks).rgb = [] ∧
          (runInteractive maxF iC iT [Decision.reject] ticks).targets
            = [] ∧
          (runInteractive maxF iC iT
            [Decision.reject] ticks).segmentCount = 0) := by
  refine ⟨?_, ?_, ?_, ?_, ?_⟩
  · intro trig cf lc lrd lts ticks hun hlen
    exact skipLoop_timeout ticks trig 0 cf lc lrd lts hun (by omega) hlen
  · intro trig cf lc lrd lts pre rest t hun hpre hrc hne
    have h := skipLoop_changed pre rest t trig 0 cf lc lrd lts hun
      (by omega) hrc hne
    simpa using h
  · intro trig cf lc lrd lts pre rest t hun hpre hrc
    have h := skipLoop_routeDone pre rest t trig 0 cf lc lrd lts hun
      (by omega) hrc
    simpa using h
  · intro trig sf cf lc lrd lts ticks
    have h := skipLoop_consumed_le ticks trig sf cf lc lrd lts
    omega
  · intro maxF iC iT ticks
    rw [runInteractive, interactiveLoop.eq_def]
    dsimp only
    by_cases hg : (0 : ℕ) < maxF
    · rw [if_pos hg]
      split
      · exact ⟨rfl, rfl, rfl, rfl⟩
      · exact ⟨rfl, rfl, rfl, rfl⟩
      · rw [interactiveLoop]
        exact ⟨rfl, rfl, rfl, rfl⟩
    · rw [if_neg hg]
      exact ⟨rfl, rfl, rfl, rfl⟩

/-- Witness for C7 at concrete inputs: 500 unchanged ticks exhaust the
fail-safe; a first differing command (Right vs Follow) exits immediately;
route completion exits to stop; the consumption bound holds on a short
stream; a reject-only run writes and buffers nothing. -/
theorem C7_skipping_witness :
    ((skipLoop 2 0 7 2 false "T0"
        (List.replicate 500 wTickGood)).exit = SkipExit.timeout ∧
      (skipLoop 2 0 7 2 false "T0"
        (List.replicate 500 wTickGood)).remaining =
          (List.replicate 500 wTickGood).drop 500 ∧
      (skipLoop 2 0 7 2 false "T0"
        (List.replicate 500 wTickGood)).collectedFrames = 7 + 500)
  ∧ skipLoop 2 0 7 2 false "T0" [wTickOther] =
      ⟨SkipExit.changed, 0, 7, 4, false, "T5", []⟩
  ∧ skipLoop 2 0 7 2 false "T0" [wTickDone] =
      ⟨SkipExit.routeDone, 0, 7, 0, true, "T6", []⟩
  ∧ ([wTickGood, wTickNone].length ≤
      (skipLoop 2 3 0 2 false "T0"
        [wTickGood, wTickNone]).remaining.length + 500)
  ∧ ((runInteractive 9 2 "T0" [Decision.reject] [wTickGood]).chunks = [] ∧
      (runInteractive 9 2 "T0" [Decision.reject] [wTickGood]).rgb = [] ∧
      (runInteractive 9 2 "T0" [Decision.reject] [wTickGood]).targets
        = [] ∧
      (runInteractive 9 2 "T0"
        [Decision.reject] [wTickGood]).segmentCount = 0) := by
  refine ⟨?_, ?_, ?_, ?_, ?_⟩
  · exact C7_skipping.1 2 7 2 false "T0" (List.replicate 500 wTickGood)
      (fun t ht => by rw [List.eq_of_mem_replicate ht]; exact ⟨rfl, rfl⟩)
      (by simp)
  · exact C7_skipping.2.1 2 7 2 false "T0" [] [] wTickOther
      (fun u hu => absurd hu (by simp)) (by decide) (by decide) (by decide)
  · exact C7_skipping.2.2.1 2 7 2 false "T0" [] [] wTickDone
      (fun u hu => absurd hu (by simp)) (by decide) (by decide)
  · exact C7_skipping.2.2.2.1 2 3 0 2 false "T0" [wTickGood, wTickNone]
  · exact C7_skipping.2.2.2.2 9 2 "T0" [wTickGood]

/-- C9: the automated collector's closing flush of the leftover incomplete
segment is written under `current_command` — the navigation command read
once before the collection loop and never reassigned inside it (the `iC`
argument of `runAuto`) — whereas every chunk flushed inside the loop by the
every-200-frame rule is written under the command of its most recently
collected frame (the command stored at index 24 of its last sample).  The
third conjunct exhibits a concrete run where the two differ: the remainder
is filed under the initial command 3 (Left) although every contained frame
observed command 2 (Follow). -/
theorem C9_auto_remainder_command :
    (∀ (maxF : ℕ) (iC : ℚ) (fT : String) (ticks : List TickInput),
        ∀ c ∈ (runAuto maxF iC fT ticks).2, c.cmd = iC)
  ∧ (∀ (maxF : ℕ) (iC : ℚ) (fT : String) (ticks : List TickInput),
        (runAuto maxF iC fT ticks).1.chunks.all cmdIsLastFrame = true)
  ∧ (((runAuto 1 3 "TF" [wTickGood]).2).map (fun c => c.cmd) = [3] ∧
      wTickGood.cmd = 2 ∧
      ∀ c ∈ (runAuto 1 3 "TF" [wTickGood]).2,
        ∀ v ∈ c.targets, v.getD 24 0 = 2) := by
  refine ⟨?_, ?_, by decide, by decide, by decide⟩
  · intro maxF iC fT ticks c hc
    have hc' : c ∈ (if 0 < (autoLoop maxF ticks
        ⟨[], [], 0, 0, []⟩).segmentCount then
        saveSegmentAuto (autoLoop maxF ticks ⟨[], [], 0, 0, []⟩).rgb
          (autoLoop maxF ticks ⟨[], [], 0, 0, []⟩).targets iC fT
        else []) := hc
    split at hc'
    · exact (saveSegmentAuto_mem _ _ _ _ hc').2.2.1
    · simp at hc'
  · intro maxF iC fT ticks
    rw [List.all_eq_true]
    exact autoLoop_cmdLast maxF ticks ⟨[], [], 0, 0, []⟩
      (fun c hc => absurd hc (by simp))

/-- Witness for C9: in the concrete run of the third conjunct, the
remainder chunk's command is the initial command 3, and a 200-tick
automated run flushes in-loop chunks that all satisfy the
last-frame-command checker. -/
theorem C9_auto_remainder_command_witness :
    ((runAuto 1 3 "TF" [wTickGood]).2.headD wChunkFallback).cmd = 3 ∧
      (runAuto 1 3 "TF" [wTickGood]).1.chunks.all cmdIsLastFrame
        = true := by
  constructor
  · exact C9_auto_remainder_command.1 1 3 "TF" [wTickGood] _ (by decide)
  · exact C9_auto_remainder_command.2.1 1 3 "TF" [wTickGood]

end Collect
